import Mathlib

/-!
Verification of `examples/virtual-kbd.c`.

A shallow embedding of the virtual keyboard example client: the static
character table `charmap`, the per-byte event sequencer `do_type`, and the
command dispatch of `main` (literal mode `type`, stream mode `pipe`).

Machine integers are natural numbers; the `uint32_t` counter `ts` is reduced
modulo `2^32` at every increment.  The file-scope variables of the C program
(`mod_none`, `mod_shift`, `ts`) and the ordered sequence of requests handed to
the Wayland client library are carried in an explicit `State`.
-/

namespace VirtualKbd

/-! ## Data model -/

/-- Values of `enum wl_keyboard_key_state`. -/
inductive KeyState where
  | released
  | pressed
  deriving DecidableEq

/-- The anonymous struct type of `mod_none` and `mod_shift`: four serialized
modifier masks. -/
structure Mods where
  press : Nat
  latch : Nat
  lock : Nat
  group : Nat
  deriving DecidableEq

/-- Observable actions of the program, in the order they are performed:
messages written to `stderr` and calls into the Wayland client library. -/
inductive Effect where
  | stderr (msg : String)
  | display_connect
  | display_get_registry
  | display_dispatch
  | display_roundtrip
  | create_virtual_keyboard
  | keymap (format : Nat) (size : Nat)
  | modifiers (depressed latched locked group : Nat)
  | key (time : Nat) (key : Nat) (state : KeyState)
  | destroy
  deriving DecidableEq

/-- File-scope variables of the program together with the trace of effects
performed so far. -/
structure State where
  mod_none : Mods
  mod_shift : Mods
  ts : Nat
  trace : List Effect
  deriving DecidableEq

/-- Perform one effect: it is appended to the trace. -/
def State.emit (s : State) (e : Effect) : State :=
  { s with trace := s.trace ++ [e] }

/-- The statement `ts += 10;` on the `uint32_t` counter. -/
def State.advance (s : State) : State :=
  { s with ts := (s.ts + 10) % 2 ^ 32 }

/-! ## The character table -/

/-- The macro `SHIFT`. -/
def SHIFT : Nat := 0x100

/-- The designated initializers of `charmap`, in source order, as
`(index, value)` pairs. -/
def charmap_init : List (Nat × Nat) := [
  (0x1b, 1), -- esc
  ('1'.toNat, 2), ('!'.toNat, SHIFT ||| 2),
  ('2'.toNat, 3), ('@'.toNat, SHIFT ||| 3),
  ('3'.toNat, 4), ('#'.toNat, SHIFT ||| 4),
  ('4'.toNat, 5), ('$'.toNat, SHIFT ||| 5),
  ('5'.toNat, 6), ('%'.toNat, SHIFT ||| 6),
  ('6'.toNat, 7), ('^'.toNat, SHIFT ||| 7),
  ('7'.toNat, 8), ('&'.toNat, SHIFT ||| 8),
  ('8'.toNat, 9), ('*'.toNat, SHIFT ||| 9),
  ('9'.toNat, 10), ('('.toNat, SHIFT ||| 10),
  ('0'.toNat, 11), (')'.toNat, SHIFT ||| 11),
  ('-'.toNat, 12), ('_'.toNat, SHIFT ||| 12),
  ('='.toNat, 13), ('+'.toNat, SHIFT ||| 13),
  (0x08, 14),
  (0x09, 15), -- '\t'
  ('q'.toNat, 16), ('Q'.toNat, SHIFT ||| 16),
  ('w'.toNat, 17), ('W'.toNat, SHIFT ||| 17),
  ('e'.toNat, 18), ('E'.toNat, SHIFT ||| 18),
  ('r'.toNat, 19), ('R'.toNat, SHIFT ||| 19),
  ('t'.toNat, 20), ('T'.toNat, SHIFT ||| 20),
  ('y'.toNat, 21), ('Y'.toNat, SHIFT ||| 21),
  ('u'.toNat, 22), ('U'.toNat, SHIFT ||| 22),
  ('i'.toNat, 23), ('I'.toNat, SHIFT ||| 23),
  ('o'.toNat, 24), ('O'.toNat, SHIFT ||| 24),
  ('p'.toNat, 25), ('P'.toNat, SHIFT ||| 25),
  ('['.toNat, 26), (0x7b, SHIFT ||| 26), -- left brace
  (']'.toNat, 27), (0x7d, SHIFT ||| 27), -- right brace
  (0x0a, 28), -- '\n'
  -- LCtrl = 29,
  ('a'.toNat, 30), ('A'.toNat, SHIFT ||| 30),
  ('s'.toNat, 31), ('S'.toNat, SHIFT ||| 31),
  ('d'.toNat, 32), ('D'.toNat, SHIFT ||| 32),
  ('f'.toNat, 33), ('F'.toNat, SHIFT ||| 33),
  ('g'.toNat, 34), ('G'.toNat, SHIFT ||| 34),
  ('h'.toNat, 35), ('H'.toNat, SHIFT ||| 35),
  ('j'.toNat, 36), ('J'.toNat, SHIFT ||| 36),
  ('k'.toNat, 37), ('K'.toNat, SHIFT ||| 37),
  ('l'.toNat, 38), ('L'.toNat, SHIFT ||| 38),
  (';'.toNat, 39), (':'.toNat, SHIFT ||| 39),
  (0x27, 40), ('"'.toNat, SHIFT ||| 40), -- apostrophe, double quote
  (0x60, 41), ('~'.toNat, SHIFT ||| 41), -- grave accent, tilde
  -- LShift = 42,
  (0x5c, 43), ('|'.toNat, SHIFT ||| 43), -- backslash, bar
  ('z'.toNat, 44), ('Z'.toNat, SHIFT ||| 44),
  ('x'.toNat, 45), ('X'.toNat, SHIFT ||| 45),
  ('c'.toNat, 46), ('C'.toNat, SHIFT ||| 46),
  ('v'.toNat, 47), ('V'.toNat, SHIFT ||| 47),
  ('b'.toNat, 48), ('B'.toNat, SHIFT ||| 48),
  ('n'.toNat, 49), ('N'.toNat, SHIFT ||| 49),
  ('m'.toNat, 50), ('M'.toNat, SHIFT ||| 50),
  (','.toNat, 51), ('<'.toNat, SHIFT ||| 51),
  ('.'.toNat, 52), ('>'.toNat, SHIFT ||| 52),
  ('/'.toNat, 53), ('?'.toNat, SHIFT ||| 53),
  -- RShift = 54, kpmu = 55, LAlt = 56,
  (' '.toNat, 57)
  -- caps = 58, F1 = 59, F10 = 68, F11 = 87, F12 = 88
]

/-- Element `i` of a static array with designated initializers: the value of
the last initializer designating `i`, and zero when there is none. -/
def charmap_elem (i : Nat) : Nat :=
  (charmap_init.reverse.lookup i).getD 0

/-- The array `static const uint32_t charmap[256]`. -/
def charmap : List Nat :=
  (List.range 256).map charmap_elem

/-! ## The event sequencer -/

/-- The request `zwp_virtual_keyboard_v1_modifiers`. It has no time argument. -/
def zwp_virtual_keyboard_v1_modifiers (s : State)
    (depressed latched locked group : Nat) : State :=
  s.emit (.modifiers depressed latched locked group)

/-- The request `zwp_virtual_keyboard_v1_key`. -/
def zwp_virtual_keyboard_v1_key (s : State) (time key : Nat) (state : KeyState) : State :=
  s.emit (.key time key state)

/-- The function `do_type`. The array read `charmap[c & 0xFF]` is the only
step that can fail, when the index is out of bounds. -/
def do_type (s : State) (c : Nat) : Option State :=
  match charmap[c &&& 0xFF]? with
  | none => none
  | some map =>
    let key := map &&& 0xFF
    let s :=
      if map &&& SHIFT ≠ 0 then
        let s := zwp_virtual_keyboard_v1_modifiers s
          s.mod_shift.press s.mod_shift.latch s.mod_shift.lock s.mod_shift.group
        let s := zwp_virtual_keyboard_v1_key s s.ts 42 /- lshift -/ .pressed
        s.advance
      else s
    let s :=
      if key ≠ 0 then
        let s := zwp_virtual_keyboard_v1_key s s.ts key .pressed
        let s := s.advance
        let s := zwp_virtual_keyboard_v1_key s s.ts key .released
        s.advance
      else s
    let s :=
      if map &&& SHIFT ≠ 0 then
        let s := zwp_virtual_keyboard_v1_modifiers s
          s.mod_none.press s.mod_none.latch s.mod_none.lock s.mod_none.group
        let s := zwp_virtual_keyboard_v1_key s s.ts 42 /- lshift -/ .released
        s.advance
      else s
    some s

/-! ## The program -/

/-- A C string: its bytes before the terminating NUL. -/
abbrev CString := List Nat

/-- The bytes of an ASCII string literal. -/
def cstr (lit : String) : CString :=
  lit.toList.map Char.toNat

/-- Outcome of one call `read(0, buf, 100)`: the value returned and the
contents of `buf` when the call returns. -/
structure ReadResult where
  rv : Int
  buf : List Nat
  deriving DecidableEq

/-- What the surroundings of the program supply to one run. -/
structure Env where
  /-- whether `wl_display_connect(NULL)` returns a display -/
  display : Bool
  /-- whether the registry advertises the virtual keyboard manager, so that
  `handle_global` has set `keyboard_manager` after the dispatch and roundtrip -/
  keyboard_manager : Bool
  /-- length of the keymap string produced by xkbcommon -/
  keymap_size : Nat
  /-- serialized modifier masks of the xkb state while key 50 is down:
  depressed, latched, locked, effective -/
  xkb_shift : Mods
  /-- serialized modifier masks of the xkb state after key 50 is up again -/
  xkb_none : Mods
  /-- outcomes of the successive calls to `read` on standard input -/
  stdin : List ReadResult
  deriving DecidableEq

/-- The exit status `EXIT_SUCCESS` of the C library. -/
def EXIT_SUCCESS : Nat := 0

/-- The exit status `EXIT_FAILURE` of the C library. -/
def EXIT_FAILURE : Nat := 1

/-- The value `WL_KEYBOARD_KEYMAP_FORMAT_XKB_V1` of the Wayland protocol. -/
def WL_KEYBOARD_KEYMAP_FORMAT_XKB_V1 : Nat := 1

/-- The file-scope variables at program start: `ts = 0`, both modifier
structs zero-initialized, nothing done yet. -/
def State.init : State :=
  { mod_none := ⟨0, 0, 0, 0⟩, mod_shift := ⟨0, 0, 0, 0⟩, ts := 0, trace := [] }

/-- The function `setup_keymap`: fills `mod_shift` and `mod_none` from the xkb
state and uploads the keymap. The xkbcommon calls are taken to succeed. -/
def setup_keymap (env : Env) (s : State) : State :=
  let s := { s with mod_shift := env.xkb_shift }
  let s := { s with mod_none := env.xkb_none }
  s.emit (.keymap WL_KEYBOARD_KEYMAP_FORMAT_XKB_V1 env.keymap_size)

/-- The loop `while (*text) { do_type(keyboard, (uint8_t)*text); text++; }`. -/
def type_loop : CString → State → Option State
  | [], s => some s
  | ch :: text, s =>
    match do_type s (ch % 256) with
    | none => none
    | some s => type_loop text s

/-- The loop `for(int i=0; i < rv; i++) do_type(keyboard, buf[i]);`. A read of
`buf[i]` past the end of the buffer has no result. -/
def pipe_for (buf : List Nat) (rv : Int) (s : State) : Option State :=
  (List.range rv.toNat).foldlM
    (fun s i =>
      match buf[i]? with
      | none => none
      | some c => do_type s c)
    s

/-- The loop `while (1)` of the `pipe` subcommand. When no further outcome of
`read` is supplied the call does not return and the loop has no result. -/
def pipe_loop : List ReadResult → State → Option State
  | [], _ => none
  | r :: rest, s =>
    if r.rv ≤ 0 then
      some s
    else
      match pipe_for r.buf r.rv s with
      | none => none
      | some s => pipe_loop rest s

/-- The last three statements of `main`. -/
def main_finish (s : State) : Nat × List Effect :=
  let s := s.emit .destroy
  let s := s.emit .display_roundtrip
  (EXIT_SUCCESS, s.trace)

/-- The function `main`, with `argc = argv.length`: the exit status and the
trace of effects. -/
def main (env : Env) (argv : List CString) : Option (Nat × List Effect) :=
  let argc := argv.length
  let s := State.init
  if argc < 2 then
    let s := s.emit (.stderr "Usage: ./virtual-keyboard <subcommand>\n")
    some (EXIT_FAILURE, s.trace)
  else
    let s := s.emit .display_connect
    if env.display = false then
      let s := s.emit (.stderr "failed to create display: %m\n")
      some (EXIT_FAILURE, s.trace)
    else
      let s := s.emit .display_get_registry
      let s := s.emit .display_dispatch
      let s := s.emit .display_roundtrip
      if env.keyboard_manager = false then
        let s := s.emit
          (.stderr "compositor does not support wp-virtual-keyboard-unstable-v1\n")
        some (EXIT_FAILURE, s.trace)
      else
        let s := s.emit .create_virtual_keyboard
        let s := setup_keymap env s
        match argv[1]? with
        | none => none
        | some cmd =>
          if cmd = cstr "type" then
            if argc < 3 then
              let s := s.emit (.stderr "Usage: ./virtual-kbd type <text>\n")
              some (EXIT_FAILURE, s.trace)
            else
              match argv[2]? with
              | none => none
              | some text =>
                match type_loop text s with
                | none => none
                | some s => some (main_finish s)
          else if cmd = cstr "pipe" then
            match pipe_loop env.stdin s with
            | none => none
            | some s => some (main_finish s)
          else
            let s := s.emit (.stderr "Invalid subcommand\n")
            some (EXIT_FAILURE, s.trace)

/-! ## Vocabulary for the statements -/

/-- Whether an effect is a key-transition request. -/
def Effect.isKey : Effect → Bool
  | .key _ _ _ => true
  | _ => false

/-- Whether an effect is a modifier-set request. -/
def Effect.isModifiers : Effect → Bool
  | .modifiers _ _ _ _ => true
  | _ => false

/-- The timestamp an effect carries on the wire: only key-transition requests
have one. -/
def Effect.time? : Effect → Option Nat
  | .key time _ _ => some time
  | _ => none

/-- The timestamps carried by a sequence of effects, in order. -/
def key_times (evs : List Effect) : List Nat :=
  evs.filterMap Effect.time?

/-- The effects performed between state `s` and a later state `t`. -/
def emitted (s t : State) : List Effect :=
  t.trace.drop s.trace.length

/-- The state in which `main` reaches its command dispatch (line 215) when the
display connection and the virtual keyboard manager are both available. -/
def State.ready (env : Env) : State :=
  { mod_none := env.xkb_none
    mod_shift := env.xkb_shift
    ts := 0
    trace := [.display_connect, .display_get_registry, .display_dispatch,
      .display_roundtrip, .create_virtual_keyboard,
      .keymap WL_KEYBOARD_KEYMAP_FORMAT_XKB_V1 env.keymap_size] }

/-- The input source adapters as the specification words them: the sequencer is
called once per byte, strictly in input order. -/
def feed (s : State) (bytes : List Nat) : Option State :=
  bytes.foldlM do_type s

/-- The chunk delivered by one successful `read`: the first `rv` bytes of the
buffer. -/
def ReadResult.chunk (r : ReadResult) : List Nat :=
  r.buf.take r.rv.toNat

/-- The punctuation keys of the US layout as (unshifted byte, shifted byte):
`- _`, `= +`, `[ {`, `] }`, `; :`, apostrophe and double quote, grave accent and
tilde, backslash and bar, `, <`, `. >`, `/ ?`. -/
def punctuation_pairs : List (Nat × Nat) :=
  [ ('-'.toNat, '_'.toNat), ('='.toNat, '+'.toNat), ('['.toNat, 0x7b), (']'.toNat, 0x7d),
    (';'.toNat, ':'.toNat), (0x27, 0x22), (0x60, 0x7e), (0x5c, 0x7c),
    (','.toNat, '<'.toNat), ('.'.toNat, '>'.toNat), ('/'.toNat, '?'.toNat) ]

/-- The six requests `do_type` sends for a byte that needs Shift, from counter
value `ts`, for key code `code`. -/
def shift_bracket (s : State) (code : Nat) : List Effect :=
  [ .modifiers s.mod_shift.press s.mod_shift.latch s.mod_shift.lock s.mod_shift.group,
    .key s.ts 42 .pressed,
    .key ((s.ts + 10) % 2 ^ 32) code .pressed,
    .key ((s.ts + 20) % 2 ^ 32) code .released,
    .modifiers s.mod_none.press s.mod_none.latch s.mod_none.lock s.mod_none.group,
    .key ((s.ts + 30) % 2 ^ 32) 42 .released ]

/-- The two requests `do_type` sends for a mapped byte that needs no Shift. -/
def press_release (s : State) (code : Nat) : List Effect :=
  [ .key s.ts code .pressed,
    .key ((s.ts + 10) % 2 ^ 32) code .released ]

/-- Whether the byte `c` requires Shift: the entry `do_type` reads for it has
the `SHIFT` bit. -/
def shift_required (c : Nat) : Bool :=
  match charmap[c &&& 0xFF]? with
  | some m => decide (m &&& SHIFT ≠ 0)
  | none => false

/-- Whether the byte `c` is an unshifted mapped byte: the entry `do_type` reads
for it has no `SHIFT` bit and a non-zero key code. -/
def plain_mapped (c : Nat) : Bool :=
  match charmap[c &&& 0xFF]? with
  | some m => decide (m &&& SHIFT = 0) && decide (m &&& 0xFF ≠ 0)
  | none => false

/-- Whether an effect is a modifier-set or key-transition request, the two
kinds of protocol event `do_type` sends. -/
def Effect.isEvent (e : Effect) : Bool :=
  e.isKey || e.isModifiers

/-- Whether an effect is the key request for key `k` with state `st`. -/
def Effect.isKeyOf (k : Nat) (st : KeyState) : Effect → Bool
  | .key _ code state => decide (code = k) && decide (state = st)
  | _ => false

/-- How often key `k` is sent with state `st` in a sequence of effects. -/
def key_count (k : Nat) (st : KeyState) (evs : List Effect) : Nat :=
  (evs.filter (Effect.isKeyOf k st)).length

/-- Replay of the key requests of a sequence of effects on the list of keys
held down: a press adds the key, a release removes it. There is no result when
a key is pressed while already held or released while not held. -/
def key_replay : List Nat → List Effect → Option (List Nat)
  | held, [] => some held
  | held, .key _ k .pressed :: evs =>
    if k ∈ held then none else key_replay (k :: held) evs
  | held, .key _ k .released :: evs =>
    if k ∈ held then key_replay (held.erase k) evs else none
  | held, _ :: evs => key_replay held evs

/-- The most recent modifiers request of a sequence of effects, if any. -/
def last_modifiers (evs : List Effect) : Option Effect :=
  (evs.filter Effect.isModifiers).getLast?

end VirtualKbd

namespace VirtualKbd

set_option maxRecDepth 100000

/-! ## Facts about the table -/

theorem charmap_length : charmap.length = 256 := by
  simp [charmap]

theorem charmap_get (i : Nat) (h : i < 256) : charmap[i]? = some (charmap_elem i) := by
  simp [charmap, List.getElem?_map, List.getElem?_range h]

theorem charmap_lt {i m : Nat} (h : charmap[i]? = some m) : i < 256 := by
  obtain ⟨hi, -⟩ := List.getElem?_eq_some.mp h
  simpa [charmap_length] using hi

theorem charmap_elem_of_get {i m : Nat} (h : charmap[i]? = some m) : m = charmap_elem i := by
  have := charmap_get i (charmap_lt h)
  rw [h] at this
  exact Option.some.inj this

theorem and_0xFF (c : Nat) : c &&& 0xFF = c % 256 :=
  Nat.and_pow_two_sub_one_eq_mod c 8

theorem and_0xFF_of_lt {b : Nat} (h : b < 256) : b &&& 0xFF = b := by
  rw [and_0xFF, Nat.mod_eq_of_lt h]

theorem charmap_elem_shift_key :
    ∀ b, b < 256 → charmap_elem b &&& SHIFT ≠ 0 → charmap_elem b &&& 0xFF ≠ 0 := by
  decide

theorem charmap_shift_key {b m : Nat} (h : charmap[b]? = some m) (hs : m &&& SHIFT ≠ 0) :
    m &&& 0xFF ≠ 0 := by
  rw [charmap_elem_of_get h] at hs ⊢
  exact charmap_elem_shift_key b (charmap_lt h) hs

/-! ## The three behaviours of `do_type` -/

theorem do_type_of_shift (s : State) {c m : Nat} (h : charmap[c &&& 0xFF]? = some m)
    (hs : m &&& SHIFT ≠ 0) :
    do_type s c = some { s with
      ts := (s.ts + 40) % 2 ^ 32
      trace := s.trace ++ shift_bracket s (m &&& 0xFF) } := by
  have hk := charmap_shift_key h hs
  unfold do_type
  rw [h]
  simp only [zwp_virtual_keyboard_v1_modifiers, zwp_virtual_keyboard_v1_key,
    State.emit, State.advance, shift_bracket, ne_eq, hs, hk, not_false_eq_true, if_true,
    List.append_assoc, List.singleton_append, List.cons_append, List.nil_append]
  have e1 : ((s.ts + 10) % 2 ^ 32 + 10) % 2 ^ 32 = (s.ts + 20) % 2 ^ 32 := by omega
  have e2 : ((s.ts + 20) % 2 ^ 32 + 10) % 2 ^ 32 = (s.ts + 30) % 2 ^ 32 := by omega
  have e3 : ((s.ts + 30) % 2 ^ 32 + 10) % 2 ^ 32 = (s.ts + 40) % 2 ^ 32 := by omega
  simp only [e1, e2, e3]

theorem do_type_of_plain (s : State) {c m : Nat} (h : charmap[c &&& 0xFF]? = some m)
    (hs : m &&& SHIFT = 0) (hk : m &&& 0xFF ≠ 0) :
    do_type s c = some { s with
      ts := (s.ts + 20) % 2 ^ 32
      trace := s.trace ++ press_release s (m &&& 0xFF) } := by
  unfold do_type
  rw [h]
  simp only [zwp_virtual_keyboard_v1_key,
    State.emit, State.advance, press_release, ne_eq, hs, hk, not_true_eq_false,
    not_false_eq_true, if_true, if_false,
    List.append_assoc, List.singleton_append, List.cons_append, List.nil_append]
  have e1 : ((s.ts + 10) % 2 ^ 32 + 10) % 2 ^ 32 = (s.ts + 20) % 2 ^ 32 := by omega
  simp only [e1]

theorem do_type_of_absent (s : State) {c m : Nat} (h : charmap[c &&& 0xFF]? = some m)
    (hs : m &&& SHIFT = 0) (hk : m &&& 0xFF = 0) :
    do_type s c = some s := by
  unfold do_type
  rw [h]
  simp only [ne_eq, hs, hk, not_true_eq_false, if_false]

/-! ## The command dispatch of `main` -/

theorem cstr_pipe_ne_type : cstr "pipe" ≠ cstr "type" := by decide

theorem main_type (env : Env) (prog text : CString) (rest : List CString)
    (hd : env.display = true) (hk : env.keyboard_manager = true) :
    main env (prog :: cstr "type" :: text :: rest) =
      Option.map main_finish (type_loop text (State.ready env)) := by
  unfold main
  simp only [List.length_cons, hd, hk]
  have h1 : ¬ (rest.length + 1 + 1 + 1 < 2) := by omega
  have h2 : ¬ (rest.length + 1 + 1 + 1 < 3) := by omega
  simp only [h1, h2, if_false, Bool.true_eq_false, List.getElem?_cons_succ,
    List.getElem?_cons_zero, if_true]
  have hs : setup_keymap env
      ((((State.init.emit Effect.display_connect).emit Effect.display_get_registry).emit
        Effect.display_dispatch).emit Effect.display_roundtrip |>.emit
          Effect.create_virtual_keyboard) = State.ready env := rfl
  rw [hs]
  cases type_loop text (State.ready env) <;> rfl

theorem main_pipe (env : Env) (prog : CString) (rest : List CString)
    (hd : env.display = true) (hk : env.keyboard_manager = true) :
    main env (prog :: cstr "pipe" :: rest) =
      Option.map main_finish (pipe_loop env.stdin (State.ready env)) := by
  unfold main
  simp only [List.length_cons, hd, hk]
  have h1 : ¬ (rest.length + 1 + 1 < 2) := by omega
  simp only [h1, if_false, Bool.true_eq_false, List.getElem?_cons_succ,
    List.getElem?_cons_zero, if_true, cstr_pipe_ne_type]
  have hs : setup_keymap env
      ((((State.init.emit Effect.display_connect).emit Effect.display_get_registry).emit
        Effect.display_dispatch).emit Effect.display_roundtrip |>.emit
          Effect.create_virtual_keyboard) = State.ready env := rfl
  rw [hs]
  cases pipe_loop env.stdin (State.ready env) <;> rfl

theorem type_loop_cons (ch : Nat) (text : CString) (s : State) :
    type_loop (ch :: text) s = (do_type s (ch % 256)).bind (type_loop text) := by
  show (match do_type s (ch % 256) with
    | none => none
    | some s => type_loop text s) = _
  cases do_type s (ch % 256) <;> rfl

theorem type_loop_nil (s : State) : type_loop [] s = some s := rfl

theorem charmap_H : charmap[72 % 256 &&& 0xFF]? = some 291 := by decide

theorem charmap_i : charmap[105 % 256 &&& 0xFF]? = some 23 := by decide

theorem charmap_bang : charmap[33 % 256 &&& 0xFF]? = some 258 := by decide

theorem type_loop_Hi (s : State) :
    type_loop [72, 105, 33] s = some { s with
      ts := (s.ts + 100) % 2 ^ 32
      trace := s.trace ++ (shift_bracket s 35 ++
        (press_release { s with ts := (s.ts + 40) % 2 ^ 32 } 23 ++
          shift_bracket { s with ts := (s.ts + 60) % 2 ^ 32 } 2)) } := by
  rw [type_loop_cons, do_type_of_shift s (c := 72 % 256) charmap_H (by decide),
    Option.some_bind,
    type_loop_cons, do_type_of_plain _ (c := 105 % 256) charmap_i (by decide) (by decide),
    Option.some_bind,
    type_loop_cons, do_type_of_shift _ (c := 33 % 256) charmap_bang (by decide),
    Option.some_bind, type_loop_nil]
  have e1 : ((s.ts + 40) % 2 ^ 32 + 20) % 2 ^ 32 = (s.ts + 60) % 2 ^ 32 := by omega
  have e2 : ((s.ts + 60) % 2 ^ 32 + 40) % 2 ^ 32 = (s.ts + 100) % 2 ^ 32 := by omega
  simp only [e1, e2, List.append_assoc]
  rfl

/-! ## The sequencer over a byte sequence -/

theorem feed_nil (s : State) : feed s [] = some s := rfl

theorem feed_cons (s : State) (c : Nat) (bytes : List Nat) :
    feed s (c :: bytes) = (do_type s c).bind (fun t => feed t bytes) := by
  simp only [feed, List.foldlM_cons]
  rfl

theorem feed_append (s : State) (xs ys : List Nat) :
    feed s (xs ++ ys) = (feed s xs).bind (fun t => feed t ys) := by
  simp only [feed, List.foldlM_append]
  rfl

theorem charmap_at (c : Nat) : charmap[c &&& 0xFF]? = some (charmap_elem (c % 256)) := by
  rw [and_0xFF]
  exact charmap_get _ (Nat.mod_lt _ (by decide))

theorem key_times_shift_bracket (s : State) (code : Nat) :
    key_times (shift_bracket s code) =
      [s.ts, (s.ts + 10) % 2 ^ 32, (s.ts + 20) % 2 ^ 32, (s.ts + 30) % 2 ^ 32] := rfl

theorem key_times_press_release (s : State) (code : Nat) :
    key_times (press_release s code) = [s.ts, (s.ts + 10) % 2 ^ 32] := rfl

theorem key_times_append (xs ys : List Effect) :
    key_times (xs ++ ys) = key_times xs ++ key_times ys := by
  simp [key_times, List.filterMap_append]

/-- Every call of `do_type` returns; what it sends carries the counter values
`ts`, `ts + 10`, ... and the counter ends advanced by 10 per key request. -/
theorem do_type_run (s : State) (c : Nat) (hts : s.ts < 2 ^ 32) :
    ∃ evs, do_type s c = some { s with
        ts := (s.ts + 10 * (key_times evs).length) % 2 ^ 32
        trace := s.trace ++ evs } ∧
      key_times evs =
        (List.range (key_times evs).length).map (fun k => (s.ts + 10 * k) % 2 ^ 32) := by
  have hm := charmap_at c
  have hmod : s.ts % 4294967296 = s.ts := by omega
  by_cases hs : charmap_elem (c % 256) &&& SHIFT ≠ 0
  · refine ⟨shift_bracket s (charmap_elem (c % 256) &&& 0xFF), ?_, ?_⟩
    · rw [do_type_of_shift s hm hs, key_times_shift_bracket]
      rfl
    · rw [key_times_shift_bracket]
      simp [List.range_succ, hmod]
  · rw [not_not] at hs
    by_cases hk : charmap_elem (c % 256) &&& 0xFF ≠ 0
    · refine ⟨press_release s (charmap_elem (c % 256) &&& 0xFF), ?_, ?_⟩
      · rw [do_type_of_plain s hm hs hk, key_times_press_release]
        rfl
      · rw [key_times_press_release]
        simp [List.range_succ, hmod]
    · rw [not_not] at hk
      refine ⟨[], ?_, ?_⟩
      · rw [do_type_of_absent s hm hs hk]
        simp [key_times, hmod]
      · simp [key_times]

theorem feed_run (bytes : List Nat) (s : State) (hts : s.ts < 2 ^ 32) :
    ∃ evs, feed s bytes = some { s with
        ts := (s.ts + 10 * (key_times evs).length) % 2 ^ 32
        trace := s.trace ++ evs } ∧
      key_times evs =
        (List.range (key_times evs).length).map (fun k => (s.ts + 10 * k) % 2 ^ 32) := by
  induction bytes generalizing s with
  | nil =>
    have hmod : s.ts % 4294967296 = s.ts := by omega
    refine ⟨[], ?_, ?_⟩
    · simp [feed_nil, key_times, hmod]
    · simp [key_times]
  | cons c bytes ih =>
    obtain ⟨e1, h1, t1⟩ := do_type_run s c hts
    obtain ⟨e2, h2, t2⟩ := ih { s with
        ts := (s.ts + 10 * (key_times e1).length) % 2 ^ 32
        trace := s.trace ++ e1 } (Nat.mod_lt _ (by decide))
    refine ⟨e1 ++ e2, ?_, ?_⟩
    · rw [feed_cons, h1, Option.some_bind, h2, key_times_append, List.length_append]
      simp only [List.append_assoc, Option.some.injEq, State.mk.injEq, true_and, and_true]
      omega
    · rw [key_times_append, List.length_append, List.range_add, List.map_append, List.map_map]
      conv_lhs => rw [t1, t2]
      congr 1
      apply List.map_congr_left
      intro k _
      simp only [Function.comp]
      omega

theorem emitted_append (s : State) (ts : Nat) (evs : List Effect) :
    emitted s { s with ts := ts, trace := s.trace ++ evs } = evs := by
  simp [emitted]

theorem stamps_pairwise (n : Nat) :
    ((List.range n).map (fun k => (0 + 10 * k) % 2 ^ 32)).Pairwise (fun a b => a < b) ↔
      n ≤ 429496730 := by
  constructor
  · intro h
    by_contra hn
    rw [List.pairwise_iff_getElem] at h
    have := h 429496729 429496730 (by simp; omega) (by simp; omega) (by decide)
    simp at this
  · intro hn
    rw [List.pairwise_map]
    refine (List.pairwise_lt_range n).imp_of_mem ?_
    intro a b ha hb hab
    rw [List.mem_range] at ha hb
    show (0 + 10 * a) % 2 ^ 32 < (0 + 10 * b) % 2 ^ 32
    rw [Nat.mod_eq_of_lt (by omega), Nat.mod_eq_of_lt (by omega)]
    omega

theorem type_loop_eq_feed (text : CString) (s : State) :
    type_loop text s = feed s (text.map (fun ch => ch % 256)) := by
  induction text generalizing s with
  | nil => rfl
  | cons ch text ih =>
    rw [type_loop_cons, List.map_cons, feed_cons]
    congr 1
    funext t
    exact ih t

theorem foldlM_singleton_opt (f : State → Nat → Option State) (s : State) (x : Nat) :
    List.foldlM f s [x] = f s x := by
  simp [List.foldlM]

theorem pipe_for_eq_feed (buf : List Nat) (rv : Int) (s : State)
    (h : rv.toNat ≤ buf.length) :
    pipe_for buf rv s = feed s (buf.take rv.toNat) := by
  unfold pipe_for
  generalize rv.toNat = n at h
  induction n with
  | zero => rfl
  | succ n ih =>
    have hn : n < buf.length := by omega
    rw [List.range_succ, List.foldlM_append, ih (by omega), List.take_succ, feed_append,
      List.getElem?_eq_getElem hn]
    show (feed s (List.take n buf)).bind _ = _
    congr 1
    funext t
    rw [foldlM_singleton_opt]
    simp only [List.getElem?_eq_getElem hn, Option.toList, feed, foldlM_singleton_opt]

theorem pipe_loop_stop (stop : ReadResult) (post : List ReadResult) (s : State)
    (hstop : stop.rv ≤ 0) : pipe_loop (stop :: post) s = some s := by
  show (if stop.rv ≤ 0 then some s else _) = _
  rw [if_pos hstop]

theorem pipe_loop_cons (r : ReadResult) (rest : List ReadResult) (s : State)
    (hr : 0 < r.rv) :
    pipe_loop (r :: rest) s = (pipe_for r.buf r.rv s).bind (pipe_loop rest) := by
  show (if r.rv ≤ 0 then some s else
    match pipe_for r.buf r.rv s with
    | none => none
    | some s => pipe_loop rest s) = _
  rw [if_neg (by omega)]
  cases pipe_for r.buf r.rv s <;> rfl

theorem pipe_loop_eq_feed (pre : List ReadResult) (stop : ReadResult)
    (post : List ReadResult) (s : State)
    (hpre : ∀ r ∈ pre, 0 < r.rv ∧ r.rv ≤ r.buf.length) (hstop : stop.rv ≤ 0) :
    pipe_loop (pre ++ stop :: post) s = feed s (pre.flatMap ReadResult.chunk) := by
  induction pre generalizing s with
  | nil => rw [List.nil_append, pipe_loop_stop stop post s hstop]; rfl
  | cons r pre ih =>
    have hr := hpre r (List.mem_cons_self r pre)
    rw [List.cons_append, pipe_loop_cons r _ s hr.1,
      pipe_for_eq_feed r.buf r.rv s (by omega), List.flatMap_cons, feed_append]
    congr 1
    funext t
    exact ih t (fun q hq => hpre q (List.mem_cons_of_mem r hq))

/-! ## Runs of `main` -/

theorem main_no_subcommand (env : Env) (argv : List CString) (h : argv.length < 2) :
    main env argv =
      some (EXIT_FAILURE, [Effect.stderr "Usage: ./virtual-keyboard <subcommand>\n"]) := by
  unfold main
  simp only [h, if_true]
  rfl

theorem main_no_display (env : Env) (argv : List CString) (h : 2 ≤ argv.length)
    (hd : env.display = false) :
    main env argv =
      some (EXIT_FAILURE, [Effect.display_connect,
        Effect.stderr "failed to create display: %m\n"]) := by
  unfold main
  have h2 : ¬ argv.length < 2 := by omega
  simp only [h2, hd, if_true, if_false]
  rfl

theorem main_no_manager (env : Env) (argv : List CString) (h : 2 ≤ argv.length)
    (hd : env.display = true) (hk : env.keyboard_manager = false) :
    main env argv =
      some (EXIT_FAILURE, [Effect.display_connect, Effect.display_get_registry,
        Effect.display_dispatch, Effect.display_roundtrip,
        Effect.stderr "compositor does not support wp-virtual-keyboard-unstable-v1\n"]) := by
  unfold main
  have h2 : ¬ argv.length < 2 := by omega
  simp only [h2, hd, hk, if_true, if_false, Bool.true_eq_false]
  rfl

theorem main_type_no_text (env : Env) (prog : CString)
    (hd : env.display = true) (hk : env.keyboard_manager = true) :
    main env [prog, cstr "type"] =
      some (EXIT_FAILURE, (State.ready env).trace ++
        [Effect.stderr "Usage: ./virtual-kbd type <text>\n"]) := by
  unfold main
  simp only [List.length_cons, List.length_nil, hd, hk]
  simp only [Nat.reduceAdd, Nat.lt_irrefl, if_false, Bool.true_eq_false,
    List.getElem?_cons_succ, List.getElem?_cons_zero, if_true, Nat.reduceLT]
  rfl

theorem main_invalid_subcommand (env : Env) (prog cmd : CString) (rest : List CString)
    (hd : env.display = true) (hk : env.keyboard_manager = true)
    (h1 : cmd ≠ cstr "type") (h2 : cmd ≠ cstr "pipe") :
    main env (prog :: cmd :: rest) =
      some (EXIT_FAILURE, (State.ready env).trace ++ [Effect.stderr "Invalid subcommand\n"]) := by
  unfold main
  simp only [List.length_cons, hd, hk]
  have h0 : ¬ (rest.length + 1 + 1 < 2) := by omega
  simp only [h0, if_false, Bool.true_eq_false, List.getElem?_cons_succ,
    List.getElem?_cons_zero, h1, h2]
  rfl

theorem ready_ts_lt (env : Env) : (State.ready env).ts < 2 ^ 32 := by
  show 0 < 2 ^ 32
  decide

theorem main_finish_eq (s : State) :
    main_finish s = (0, s.trace ++ [Effect.destroy, Effect.display_roundtrip]) := by
  simp [main_finish, State.emit, EXIT_SUCCESS]

/-- In either mode a run of `main` that gets past the setup is the setup, then
what the sequencer sends for the input bytes, then the teardown. -/
theorem main_session (env : Env) (argv : List CString) (bytes : List Nat)
    (h : main env argv = Option.map main_finish (feed (State.ready env) bytes)) :
    ∃ evs, main env argv = some (0, (State.ready env).trace ++ evs ++
        [Effect.destroy, Effect.display_roundtrip]) ∧
      key_times ((State.ready env).trace ++ evs ++
        [Effect.destroy, Effect.display_roundtrip]) =
        (List.range (key_times evs).length).map (fun k => (0 + 10 * k) % 2 ^ 32) := by
  obtain ⟨evs, hf, ht⟩ := feed_run bytes (State.ready env) (ready_ts_lt env)
  have hk : key_times ((State.ready env).trace ++ evs ++
      [Effect.destroy, Effect.display_roundtrip]) = key_times evs := by
    rw [key_times_append, key_times_append]
    show [] ++ key_times evs ++ [] = key_times evs
    simp
  refine ⟨evs, ?_, ?_⟩
  · rw [h, hf, Option.map_some', main_finish_eq]
  · rw [hk]
    exact ht

theorem main_session_feed (env : Env) (argv : List CString)
    (hd : env.display = true) (hk : env.keyboard_manager = true)
    (hin : (∃ prog text rest, argv = prog :: cstr "type" :: text :: rest) ∨
      (∃ prog rest pre stop post, argv = prog :: cstr "pipe" :: rest ∧
        env.stdin = pre ++ stop :: post ∧
        (∀ r ∈ pre, 0 < r.rv ∧ r.rv ≤ r.buf.length) ∧ stop.rv ≤ 0)) :
    ∃ bytes, main env argv = Option.map main_finish (feed (State.ready env) bytes) := by
  rcases hin with ⟨prog, text, rest, rfl⟩ | ⟨prog, rest, pre, stop, post, rfl, hs, hpre, hstop⟩
  · exact ⟨_, by rw [main_type env prog text rest hd hk, type_loop_eq_feed]⟩
  · exact ⟨_, by rw [main_pipe env prog rest hd hk, hs,
      pipe_loop_eq_feed pre stop post _ hpre hstop]⟩

theorem main_Hi_events (env : Env) (prog : CString)
    (hd : env.display = true) (hk : env.keyboard_manager = true) :
    main env [prog, cstr "type", cstr "Hi!"] =
      some (0, (State.ready env).trace ++
        (shift_bracket (State.ready env) 35 ++
          (press_release { State.ready env with ts := 40 } 23 ++
            shift_bracket { State.ready env with ts := 60 } 2)) ++
        [Effect.destroy, Effect.display_roundtrip]) := by
  rw [main_type env prog (cstr "Hi!") [] hd hk]
  have e : cstr "Hi!" = [72, 105, 33] := rfl
  rw [e, type_loop_Hi, Option.map_some', main_finish_eq]
  rfl

/-! ## Per-byte contracts of `do_type` -/

/-- C1: for every byte `b` whose `charmap` entry `m` has the `SHIFT` bit set,
`do_type` sends exactly six requests, in this order: modifiers `mod_shift`, key
42 pressed, key `m & 0xFF` pressed, key `m & 0xFF` released, modifiers
`mod_none`, key 42 released; the four key requests carry the counter values
`ts`, `ts + 10`, `ts + 20`, `ts + 30` and nothing else of the state changes but
the counter. -/
theorem do_type_shift_bracketing (s : State) (b m : Nat)
    (hm : charmap[b]? = some m) (hshift : m &&& SHIFT ≠ 0) :
    do_type s b = some { s with
      ts := (s.ts + 40) % 2 ^ 32
      trace := s.trace ++
        [ Effect.modifiers s.mod_shift.press s.mod_shift.latch s.mod_shift.lock
            s.mod_shift.group,
          Effect.key s.ts 42 KeyState.pressed,
          Effect.key ((s.ts + 10) % 2 ^ 32) (m &&& 0xFF) KeyState.pressed,
          Effect.key ((s.ts + 20) % 2 ^ 32) (m &&& 0xFF) KeyState.released,
          Effect.modifiers s.mod_none.press s.mod_none.latch s.mod_none.lock
            s.mod_none.group,
          Effect.key ((s.ts + 30) % 2 ^ 32) 42 KeyState.released ] } := by
  have hb : b &&& 0xFF = b := and_0xFF_of_lt (charmap_lt hm)
  have h := do_type_of_shift s (c := b) (m := m) (by rw [hb]; exact hm) hshift
  simpa [shift_bracket] using h

/-- Witness for C1 at the byte of `H`: its entry is `SHIFT | 35`. -/
theorem do_type_shift_bracketing_witness :
    charmap[72]? = some 291 ∧ 291 &&& SHIFT ≠ 0 ∧
    do_type State.init 72 = some { State.init with
      ts := 40
      trace :=
        [ Effect.modifiers 0 0 0 0,
          Effect.key 0 42 KeyState.pressed,
          Effect.key 10 35 KeyState.pressed,
          Effect.key 20 35 KeyState.released,
          Effect.modifiers 0 0 0 0,
          Effect.key 30 42 KeyState.released ] } :=
  ⟨by decide, by decide, do_type_shift_bracketing State.init 72 291 (by decide) (by decide)⟩

/-- C2: for every byte `b` whose `charmap` entry `m` has no `SHIFT` bit and a
non-zero key code, `do_type` sends exactly two requests, key `m & 0xFF` pressed
then key `m & 0xFF` released, and no modifier request. -/
theorem do_type_plain_key (s : State) (b m : Nat)
    (hm : charmap[b]? = some m) (hshift : m &&& SHIFT = 0) (hkey : m &&& 0xFF ≠ 0) :
    do_type s b = some { s with
      ts := (s.ts + 20) % 2 ^ 32
      trace := s.trace ++
        [ Effect.key s.ts (m &&& 0xFF) KeyState.pressed,
          Effect.key ((s.ts + 10) % 2 ^ 32) (m &&& 0xFF) KeyState.released ] } ∧
    ∀ t, do_type s b = some t → ∀ e ∈ emitted s t, e.isModifiers = false := by
  have hb : b &&& 0xFF = b := and_0xFF_of_lt (charmap_lt hm)
  have h := do_type_of_plain s (c := b) (m := m) (by rw [hb]; exact hm) hshift hkey
  refine ⟨by simpa [press_release] using h, ?_⟩
  intro t ht e he
  rw [h] at ht
  cases ht
  simp [emitted, press_release] at he
  rcases he with rfl | rfl <;> rfl

/-- Witness for C2 at the byte of `i`: its entry is 23. -/
theorem do_type_plain_key_witness :
    charmap[105]? = some 23 ∧ 23 &&& SHIFT = 0 ∧ 23 &&& 0xFF ≠ 0 ∧
    do_type State.init 105 = some { State.init with
      ts := 20
      trace := [Effect.key 0 23 KeyState.pressed, Effect.key 10 23 KeyState.released] } :=
  ⟨by decide, by decide, by decide,
    (do_type_plain_key State.init 105 23 (by decide) (by decide) (by decide)).1⟩

/-- C3: for byte `0x00` and for every other byte whose `charmap` entry is 0,
`do_type` returns the state it was given: no request is sent and `ts` is
unchanged. -/
theorem do_type_absent_silent (s : State) (b : Nat)
    (hb : b = 0 ∨ charmap[b]? = some 0) :
    do_type s b = some s := by
  have h0 : charmap[b]? = some 0 := by
    rcases hb with rfl | h
    · rw [charmap_get 0 (by decide)]; rfl
    · exact h
  have hb : b &&& 0xFF = b := and_0xFF_of_lt (charmap_lt h0)
  exact do_type_of_absent s (c := b) (m := 0) (by rw [hb]; exact h0) (by decide) (by decide)

/-- Witness for C3 at byte `0x7F` (DEL), which has no initializer. -/
theorem do_type_absent_silent_witness :
    charmap[127]? = some 0 ∧ do_type State.init 127 = some State.init :=
  ⟨by decide, do_type_absent_silent State.init 127 (Or.inr (by decide))⟩

/-! ## Timestamps over a session -/

/-- C4 (amended): in a session of `main` that reaches an input loop (literal
mode, or stream mode whose reads end with a non-positive result), starting from
`ts = 0`, only key requests carry a timestamp; the timestamps of the key
requests are strictly increasing in emission order exactly when at most
429496730 key requests are sent, after which the 32-bit counter wraps. For the
text `Hi!` the 14 key and modifier requests carry the 10 timestamps
0, 10, ..., 90. -/
theorem session_key_times (env : Env) (argv : List CString)
    (hd : env.display = true) (hk : env.keyboard_manager = true)
    (hin : (∃ prog text rest, argv = prog :: cstr "type" :: text :: rest) ∨
      (∃ prog rest pre stop post, argv = prog :: cstr "pipe" :: rest ∧
        env.stdin = pre ++ stop :: post ∧
        (∀ r ∈ pre, 0 < r.rv ∧ r.rv ≤ r.buf.length) ∧ stop.rv ≤ 0)) :
    ∃ trace, main env argv = some (0, trace) ∧
      (∀ e ∈ trace, e.isKey = false → e.time? = none) ∧
      ((key_times trace).Pairwise (fun t1 t2 => t1 < t2) ↔
        (key_times trace).length ≤ 429496730) ∧
      (∀ prog, argv = [prog, cstr "type", cstr "Hi!"] →
        (trace.filter (fun e => e.isKey || e.isModifiers)).length = 14 ∧
        key_times trace = [0, 10, 20, 30, 40, 50, 60, 70, 80, 90]) := by
  obtain ⟨bytes, hb⟩ := main_session_feed env argv hd hk hin
  obtain ⟨evs, hm, ht⟩ := main_session env argv bytes hb
  refine ⟨_, hm, ?_, ?_, ?_⟩
  · intro e _ he
    cases e <;> first | rfl | cases he
  · rw [ht, stamps_pairwise, List.length_map, List.length_range]
  · intro prog hargv
    subst hargv
    have h2 := main_Hi_events env prog hd hk
    rw [hm] at h2
    simp only [Option.some.injEq, Prod.mk.injEq, true_and] at h2
    rw [h2]
    exact ⟨rfl, rfl⟩

/-- Witness for C4: the session typing `Hi!`. -/
theorem session_key_times_witness :
    ∃ trace, main ⟨true, true, 7, ⟨1, 0, 0, 1⟩, ⟨0, 0, 0, 0⟩, []⟩
        [cstr "virtual-kbd", cstr "type", cstr "Hi!"] = some (0, trace) ∧
      (key_times trace).Pairwise (fun t1 t2 => t1 < t2) ∧
      key_times trace = [0, 10, 20, 30, 40, 50, 60, 70, 80, 90] := by
  obtain ⟨trace, hm, -, hiff, hhi⟩ :=
    session_key_times ⟨true, true, 7, ⟨1, 0, 0, 1⟩, ⟨0, 0, 0, 0⟩, []⟩
      [cstr "virtual-kbd", cstr "type", cstr "Hi!"] rfl rfl (Or.inl ⟨_, _, _, rfl⟩)
  have h := (hhi _ rfl).2
  exact ⟨trace, hm, hiff.mpr (by rw [h]; decide), h⟩

/-- Counterexample to C4 as stated: of the 14 key and modifier requests sent
for `Hi!` only 10 carry a timestamp, and the first request, a modifiers
request, has none, so the requests are not pairwise ordered by timestamp. -/
theorem session_timestamps_counterexample :
    ∃ trace, main ⟨true, true, 7, ⟨1, 0, 0, 1⟩, ⟨0, 0, 0, 0⟩, []⟩
        [cstr "virtual-kbd", cstr "type", cstr "Hi!"] = some (0, trace) ∧
      (trace.filter (fun e => e.isKey || e.isModifiers)).length = 14 ∧
      (key_times trace).length = 10 ∧
      (trace.filter (fun e => e.isKey || e.isModifiers)).head? =
        some (Effect.modifiers 1 0 0 1) ∧
      (Effect.modifiers 1 0 0 1).time? = none ∧
      ¬ (trace.filter (fun e => e.isKey || e.isModifiers)).Pairwise
        (fun e1 e2 => ∃ t1 t2, e1.time? = some t1 ∧ e2.time? = some t2 ∧ t1 < t2) := by
  refine ⟨_, main_Hi_events _ (cstr "virtual-kbd") rfl rfl, by decide, by decide, by decide,
    rfl, ?_⟩
  intro h
  have h1 := List.rel_of_pairwise_cons h (List.mem_cons_self _ _)
  obtain ⟨t1, _, h3, _⟩ := h1
  cases h3

/-! ## Advance of the counter -/

theorem emitted_self (s : State) : emitted s s = [] := by
  simp [emitted]

theorem stamps_shift_bracket (s : State) (code : Nat) (hts : s.ts < 2 ^ 32) :
    ∀ i time key st, (shift_bracket s code)[i]? = some (Effect.key time key st) →
      time = (s.ts + 10 * (((shift_bracket s code).take i).filter Effect.isKey).length)
        % 2 ^ 32 := by
  have hmod : s.ts % 4294967296 = s.ts := by omega
  intro i time key st h
  rcases i with _ | _ | _ | _ | _ | _ | i <;>
    simp [shift_bracket, Effect.isKey, hmod] at h ⊢ <;>
    omega

theorem stamps_press_release (s : State) (code : Nat) (hts : s.ts < 2 ^ 32) :
    ∀ i time key st, (press_release s code)[i]? = some (Effect.key time key st) →
      time = (s.ts + 10 * (((press_release s code).take i).filter Effect.isKey).length)
        % 2 ^ 32 := by
  have hmod : s.ts % 4294967296 = s.ts := by omega
  intro i time key st h
  rcases i with _ | _ | i <;>
    simp [press_release, Effect.isKey, hmod] at h ⊢ <;>
    omega

/-- C5 (amended): `do_type` advances `ts` by exactly 10 (modulo `2^32`) for
every key request it sends and not at all for a modifiers request: each key
request carries the value the counter has after 10 was added for every key
request sent before it, whatever modifiers requests lie in between, and the
counter ends 10 further per key request; so a byte requiring Shift (six
requests, four of them key requests, stamped `ts`, `ts + 10`, `ts + 20`,
`ts + 30`) advances `ts` by 40 and an unshifted mapped byte (stamps `ts`,
`ts + 10`) by 20. -/
theorem do_type_advance (s : State) (b m : Nat)
    (hm : charmap[b]? = some m) (hts : s.ts < 2 ^ 32) :
    ∃ t, do_type s b = some t ∧
      t.ts = (s.ts + 10 * ((emitted s t).filter Effect.isKey).length) % 2 ^ 32 ∧
      (m &&& SHIFT ≠ 0 →
        t.ts = (s.ts + 40) % 2 ^ 32 ∧ (emitted s t).length = 6 ∧
        ((emitted s t).filter Effect.isKey).length = 4 ∧
        ((emitted s t).filter Effect.isModifiers).length = 2 ∧
        emitted s t =
          [ Effect.modifiers s.mod_shift.press s.mod_shift.latch s.mod_shift.lock
              s.mod_shift.group,
            Effect.key s.ts 42 KeyState.pressed,
            Effect.key ((s.ts + 10) % 2 ^ 32) (m &&& 0xFF) KeyState.pressed,
            Effect.key ((s.ts + 20) % 2 ^ 32) (m &&& 0xFF) KeyState.released,
            Effect.modifiers s.mod_none.press s.mod_none.latch s.mod_none.lock
              s.mod_none.group,
            Effect.key ((s.ts + 30) % 2 ^ 32) 42 KeyState.released ]) ∧
      (m &&& SHIFT = 0 → m &&& 0xFF ≠ 0 →
        t.ts = (s.ts + 20) % 2 ^ 32 ∧ (emitted s t).length = 2 ∧
        ((emitted s t).filter Effect.isKey).length = 2 ∧
        emitted s t =
          [ Effect.key s.ts (m &&& 0xFF) KeyState.pressed,
            Effect.key ((s.ts + 10) % 2 ^ 32) (m &&& 0xFF) KeyState.released ]) ∧
      (∀ d l k g, (zwp_virtual_keyboard_v1_modifiers s d l k g).ts = s.ts) ∧
      (∀ time key st,
        (zwp_virtual_keyboard_v1_key s time key st).advance.ts = (s.ts + 10) % 2 ^ 32) ∧
      key_times (emitted s t) =
        (List.range ((emitted s t).filter Effect.isKey).length).map
          (fun k => (s.ts + 10 * k) % 2 ^ 32) ∧
      (∀ i time key st, (emitted s t)[i]? = some (Effect.key time key st) →
        time = (s.ts + 10 * (((emitted s t).take i).filter Effect.isKey).length)
          % 2 ^ 32) := by
  have hb : charmap[b &&& 0xFF]? = some m := by
    rw [and_0xFF_of_lt (charmap_lt hm)]; exact hm
  have hmod : s.ts % 4294967296 = s.ts := by omega
  by_cases hs : m &&& SHIFT ≠ 0
  · refine ⟨_, do_type_of_shift s hb hs, ?_, ?_, ?_, ?_, ?_, ?_, ?_⟩
    · rw [emitted_append]; rfl
    · intro _; rw [emitted_append]; exact ⟨rfl, rfl, rfl, rfl, rfl⟩
    · intro h; exact absurd h hs
    · intro d l k g; rfl
    · intro time key st; rfl
    · rw [emitted_append, key_times_shift_bracket]
      simp [shift_bracket, Effect.isKey, List.range_succ, hmod]
    · rw [emitted_append]
      exact stamps_shift_bracket s _ hts
  · rw [not_not] at hs
    by_cases hk : m &&& 0xFF ≠ 0
    · refine ⟨_, do_type_of_plain s hb hs hk, ?_, ?_, ?_, ?_, ?_, ?_, ?_⟩
      · rw [emitted_append]; rfl
      · intro h; exact absurd hs h
      · intro _ _; rw [emitted_append]; exact ⟨rfl, rfl, rfl, rfl⟩
      · intro d l k g; rfl
      · intro time key st; rfl
      · rw [emitted_append, key_times_press_release]
        simp [press_release, Effect.isKey, List.range_succ, hmod]
      · rw [emitted_append]
        exact stamps_press_release s _ hts
    · rw [not_not] at hk
      refine ⟨_, do_type_of_absent s hb hs hk, ?_, ?_, ?_, ?_, ?_, ?_, ?_⟩
      · rw [emitted_self]; simp [hmod]
      · intro h; exact absurd hs h
      · intro _ h; exact absurd hk h
      · intro d l k g; rfl
      · intro time key st; rfl
      · rw [emitted_self]; rfl
      · rw [emitted_self]
        intro i time key st h
        simp at h

/-- Witness for C5 at the byte of `H` from the initial state: the counter
ends at 40 and the four key requests are stamped 0, 10, 20, 30. -/
theorem do_type_advance_witness :
    charmap[72]? = some 291 ∧ State.init.ts < 2 ^ 32 ∧
    ∃ t, do_type State.init 72 = some t ∧ t.ts = 40 ∧
      key_times (emitted State.init t) = [0, 10, 20, 30] := by
  obtain ⟨t, h, -, hs, -, -, -, hk, -⟩ :=
    do_type_advance State.init 72 291 (by decide) (by decide)
  obtain ⟨h40, -, h4, -⟩ := hs (by decide)
  refine ⟨by decide, by decide, t, h, h40, ?_⟩
  rw [hk, h4]
  decide

/-- Counterexample to C5 as stated: for the byte of `H` from `ts = 0`,
`do_type` sends six requests, two of them modifiers requests, and leaves
`ts = 40`, not 60. -/
theorem do_type_advance_counterexample :
    ∃ t, do_type State.init 72 = some t ∧ (emitted State.init t).length = 6 ∧
      ((emitted State.init t).filter Effect.isModifiers).length = 2 ∧
      t.ts = 40 ∧ t.ts ≠ 60 ∧ t.ts ≠ 10 * (emitted State.init t).length := by
  decide

/-! ## Literal mode on the sample text -/

/-- C6: typing the literal text `Hi!` (with the display and the virtual
keyboard manager available) sends exactly 14 key and modifier requests between
the keymap upload and the final destroy: the six-request Shift bracket for key
code 35, press and release of key code 23, and the six-request Shift bracket
for key code 2, in this order; `main` returns 0. The codes 35, 23 and 2 are the
entries of `h`, `i` and `1`. -/
theorem main_type_Hi (env : Env) (prog : CString)
    (hd : env.display = true) (hk : env.keyboard_manager = true) :
    main env [prog, cstr "type", cstr "Hi!"] =
      some (0,
        [ Effect.display_connect, Effect.display_get_registry, Effect.display_dispatch,
          Effect.display_roundtrip, Effect.create_virtual_keyboard,
          Effect.keymap 1 env.keymap_size,
          Effect.modifiers env.xkb_shift.press env.xkb_shift.latch env.xkb_shift.lock
            env.xkb_shift.group,
          Effect.key 0 42 KeyState.pressed,
          Effect.key 10 35 KeyState.pressed,
          Effect.key 20 35 KeyState.released,
          Effect.modifiers env.xkb_none.press env.xkb_none.latch env.xkb_none.lock
            env.xkb_none.group,
          Effect.key 30 42 KeyState.released,
          Effect.key 40 23 KeyState.pressed,
          Effect.key 50 23 KeyState.released,
          Effect.modifiers env.xkb_shift.press env.xkb_shift.latch env.xkb_shift.lock
            env.xkb_shift.group,
          Effect.key 60 42 KeyState.pressed,
          Effect.key 70 2 KeyState.pressed,
          Effect.key 80 2 KeyState.released,
          Effect.modifiers env.xkb_none.press env.xkb_none.latch env.xkb_none.lock
            env.xkb_none.group,
          Effect.key 90 42 KeyState.released,
          Effect.destroy, Effect.display_roundtrip ]) ∧
    charmap['h'.toNat]? = some 35 ∧ charmap['i'.toNat]? = some 23 ∧
    charmap['1'.toNat]? = some 2 := by
  refine ⟨?_, by decide, by decide, by decide⟩
  rw [main_type env prog (cstr "Hi!") [] hd hk]
  have e : cstr "Hi!" = [72, 105, 33] := rfl
  rw [e, type_loop_Hi]
  rfl

/-- Witness for C6 in a concrete environment: exit status 0 and 14 key and
modifier requests. -/
theorem main_type_Hi_witness :
    (main ⟨true, true, 7, ⟨1, 0, 0, 1⟩, ⟨0, 0, 0, 0⟩, []⟩
        [cstr "virtual-kbd", cstr "type", cstr "Hi!"]).map
      (fun r => (r.1, (r.2.filter (fun e => e.isKey || e.isModifiers)).length)) =
      some (0, 14) :=
  congrArg
    (Option.map (fun r => (r.1, (r.2.filter (fun e => e.isKey || e.isModifiers)).length)))
    (main_type_Hi ⟨true, true, 7, ⟨1, 0, 0, 1⟩, ⟨0, 0, 0, 0⟩, []⟩ (cstr "virtual-kbd") rfl rfl).1

/-! ## Contents of the table -/

theorem charmap_elem_domain :
    ∀ b, b < 256 →
      ((charmap_elem b &&& 0xFF ≠ 0) ↔
        ((0x20 ≤ b ∧ b ≤ 0x7E) ∨ b = 0x08 ∨ b = 0x09 ∨ b = 0x0A ∨ b = 0x1B)) ∧
      (¬ ((0x20 ≤ b ∧ b ≤ 0x7E) ∨ b = 0x08 ∨ b = 0x09 ∨ b = 0x0A ∨ b = 0x1B) →
        charmap_elem b = 0) ∧
      (b = 0x1B → charmap_elem b = 1) ∧ (b = 0x08 → charmap_elem b = 14) ∧
      (b = 0x09 → charmap_elem b = 15) ∧ (b = 0x0A → charmap_elem b = 28) ∧
      (b = 0x20 → charmap_elem b = 57) := by
  decide

/-- C7: a byte `b` in 0..255 has a non-zero key code in `charmap` exactly when
it is a printable ASCII byte (0x20..0x7E) or one of Backspace 0x08, Tab 0x09,
Enter 0x0A, Escape 0x1B; the entry of every other byte is 0; and the entries of
Escape, Backspace, Tab, Enter and Space are 1, 14, 15, 28 and 57, without the
`SHIFT` bit. -/
theorem charmap_domain (b : Nat) (hb : b < 256) :
    ∃ m, charmap[b]? = some m ∧
      ((m &&& 0xFF ≠ 0) ↔
        ((0x20 ≤ b ∧ b ≤ 0x7E) ∨ b = 0x08 ∨ b = 0x09 ∨ b = 0x0A ∨ b = 0x1B)) ∧
      (¬ ((0x20 ≤ b ∧ b ≤ 0x7E) ∨ b = 0x08 ∨ b = 0x09 ∨ b = 0x0A ∨ b = 0x1B) → m = 0) ∧
      (b = 0x1B → m = 1) ∧ (b = 0x08 → m = 14) ∧ (b = 0x09 → m = 15) ∧
      (b = 0x0A → m = 28) ∧ (b = 0x20 → m = 57) :=
  ⟨charmap_elem b, charmap_get b hb, charmap_elem_domain b hb⟩

/-- Witness for C7 at Escape, the byte 0x1B. -/
theorem charmap_domain_witness :
    (27 : Nat) < 256 ∧ ∃ m, charmap[27]? = some m ∧ m &&& 0xFF ≠ 0 ∧ m = 1 := by
  obtain ⟨m, hm, hiff, -, hesc, -⟩ := charmap_domain 27 (by decide)
  exact ⟨by decide, m, hm, hiff.mpr (by decide), hesc rfl⟩

theorem charmap_elem_letters :
    ∀ c, c < 256 → 0x61 ≤ c → c ≤ 0x7A →
      charmap_elem c &&& 0xFF ≠ 0 ∧ charmap_elem c &&& SHIFT = 0 ∧
      charmap_elem (c - 0x20) = SHIFT ||| charmap_elem c ∧
      charmap_elem (c - 0x20) &&& 0xFF = charmap_elem c &&& 0xFF ∧
      charmap_elem (c - 0x20) &&& SHIFT ≠ 0 := by
  decide

theorem charmap_elem_digits :
    ∀ i, i < 10 →
      ∃ d ∈ (cstr "1234567890")[i]?, ∃ sym ∈ (cstr "!@#$%^&*()")[i]?,
        d < 256 ∧ sym < 256 ∧
        charmap_elem d = i + 2 ∧ charmap_elem sym = SHIFT ||| (i + 2) := by
  decide

theorem charmap_elem_punctuation :
    ∀ p ∈ punctuation_pairs, p.1 < 256 ∧ p.2 < 256 ∧
      charmap_elem p.1 &&& 0xFF ≠ 0 ∧ charmap_elem p.1 &&& SHIFT = 0 ∧
      charmap_elem p.2 = SHIFT ||| charmap_elem p.1 := by
  decide

/-- C8: `charmap` follows the US-QWERTY shift pairing. For each lowercase
letter `c` the entry is a non-zero code without `SHIFT` and the entry of
`c - 0x20` is that code with `SHIFT`; the `i`-th character of `1234567890` has
entry `i + 2` and the `i`-th character of `!@#$%^&*()` has entry
`SHIFT | (i + 2)`; for each punctuation pair the entry of the second byte is
`SHIFT` or-ed with the entry of the first, which is a code without `SHIFT`. -/
theorem charmap_shift_pairing :
    (∀ c, 0x61 ≤ c → c ≤ 0x7A →
      ∃ m up, charmap[c]? = some m ∧ charmap[c - 0x20]? = some up ∧
        m &&& 0xFF ≠ 0 ∧ m &&& SHIFT = 0 ∧ up = SHIFT ||| m ∧
        up &&& 0xFF = m &&& 0xFF ∧ up &&& SHIFT ≠ 0) ∧
    (∀ i, i < 10 →
      ∃ d sym, (cstr "1234567890")[i]? = some d ∧ (cstr "!@#$%^&*()")[i]? = some sym ∧
        charmap[d]? = some (i + 2) ∧ charmap[sym]? = some (SHIFT ||| (i + 2))) ∧
    (∀ p ∈ punctuation_pairs,
      ∃ m, charmap[p.1]? = some m ∧ m &&& 0xFF ≠ 0 ∧ m &&& SHIFT = 0 ∧
        charmap[p.2]? = some (SHIFT ||| m)) := by
  refine ⟨?_, ?_, ?_⟩
  · intro c h1 h2
    have hc : c < 256 := by omega
    exact ⟨charmap_elem c, charmap_elem (c - 0x20), charmap_get c hc,
      charmap_get (c - 0x20) (by omega), charmap_elem_letters c hc h1 h2⟩
  · intro i hi
    obtain ⟨d, hd, sym, hsym, hd256, hs256, e1, e2⟩ := charmap_elem_digits i hi
    refine ⟨d, sym, hd, hsym, ?_, ?_⟩
    · rw [charmap_get d hd256, e1]
    · rw [charmap_get sym hs256, e2]
  · intro p hp
    obtain ⟨h1, h2, hk, hs, e⟩ := charmap_elem_punctuation p hp
    refine ⟨charmap_elem p.1, charmap_get p.1 h1, hk, hs, ?_⟩
    rw [charmap_get p.2 h2, e]

/-- Witness for C8: the letter `h` (0x68) and `H` (0x48), the digit `1` and
`!` at position 0, and the pair `/ ?`. -/
theorem charmap_shift_pairing_witness :
    (∃ m up, charmap[0x68]? = some m ∧ charmap[0x48]? = some up ∧ up = SHIFT ||| m) ∧
    (∃ d sym, (cstr "1234567890")[0]? = some d ∧ (cstr "!@#$%^&*()")[0]? = some sym ∧
        charmap[d]? = some 2 ∧ charmap[sym]? = some (SHIFT ||| 2)) ∧
    (∃ m, charmap[47]? = some m ∧ charmap[63]? = some (SHIFT ||| m)) := by
  refine ⟨?_, ?_, ?_⟩
  · obtain ⟨m, up, h1, h2, -, -, h3, -⟩ :=
      charmap_shift_pairing.1 0x68 (by decide) (by decide)
    exact ⟨m, up, h1, h2, h3⟩
  · exact charmap_shift_pairing.2.1 0 (by decide)
  · obtain ⟨m, h1, -, -, h2⟩ := charmap_shift_pairing.2.2 (47, 63) (by decide)
    exact ⟨m, h1, h2⟩

/-! ## Stream mode -/

/-- C9: in stream mode, when the outcomes of `read` are the successful reads
`pre`, then a first non-positive result `stop` (end of stream or error), then
anything, `main` returns 0 and what it sends is what the sequencer, called once
per byte in order, sends for the concatenated chunks of `pre`; any other
chunking of the same bytes gives the same run; nothing after `stop` matters;
with no chunk before `stop` nothing is sent between setup and teardown. -/
theorem main_pipe_stream (env : Env) (prog : CString)
    (pre : List ReadResult) (stop : ReadResult) (post : List ReadResult)
    (hd : env.display = true) (hk : env.keyboard_manager = true)
    (hin : env.stdin = pre ++ stop :: post)
    (hpre : ∀ r ∈ pre, 0 < r.rv ∧ r.rv ≤ r.buf.length) (hstop : stop.rv ≤ 0) :
    ∃ t, feed (State.ready env) (pre.flatMap ReadResult.chunk) = some t ∧
      main env [prog, cstr "pipe"] =
        some (0, t.trace ++ [Effect.destroy, Effect.display_roundtrip]) ∧
      (∀ (pre2 : List ReadResult) (stop2 : ReadResult) (post2 : List ReadResult),
        (∀ r ∈ pre2, 0 < r.rv ∧ r.rv ≤ r.buf.length) → stop2.rv ≤ 0 →
        pre2.flatMap ReadResult.chunk = pre.flatMap ReadResult.chunk →
        main { env with stdin := pre2 ++ stop2 :: post2 } [prog, cstr "pipe"] =
          main env [prog, cstr "pipe"]) ∧
      (pre = [] → t = State.ready env) := by
  have h0 : (State.ready env).ts < 2 ^ 32 := by show 0 < 2 ^ 32; decide
  obtain ⟨evs, h, -⟩ := feed_run (pre.flatMap ReadResult.chunk) (State.ready env) h0
  have hmain : main env [prog, cstr "pipe"] =
      Option.map main_finish (feed (State.ready env) (pre.flatMap ReadResult.chunk)) := by
    rw [main_pipe env prog [] hd hk, hin, pipe_loop_eq_feed pre stop post _ hpre hstop]
  refine ⟨_, h, ?_, ?_, ?_⟩
  · rw [hmain, h]
    simp [main_finish, State.emit, EXIT_SUCCESS]
  · intro pre2 stop2 post2 hpre2 hstop2 hsame
    rw [hmain, main_pipe { env with stdin := pre2 ++ stop2 :: post2 } prog [] hd hk]
    show Option.map main_finish (pipe_loop (pre2 ++ stop2 :: post2) (State.ready env)) = _
    rw [pipe_loop_eq_feed pre2 stop2 post2 _ hpre2 hstop2, hsame]
  · intro hnil
    subst hnil
    simpa [feed_nil] using h.symm

/-- Witness for C9: `Hi` and `!` arrive in two reads, then end of stream; a
further pending read is never made. -/
theorem main_pipe_stream_witness :
    ∃ t, feed (State.ready ⟨true, true, 7, ⟨1, 0, 0, 1⟩, ⟨0, 0, 0, 0⟩,
          [⟨2, [72, 105, 0]⟩, ⟨1, [33, 105, 0]⟩, ⟨0, [33, 105, 0]⟩, ⟨3, [1, 2, 3]⟩]⟩)
        [72, 105, 33] = some t ∧
      main ⟨true, true, 7, ⟨1, 0, 0, 1⟩, ⟨0, 0, 0, 0⟩,
          [⟨2, [72, 105, 0]⟩, ⟨1, [33, 105, 0]⟩, ⟨0, [33, 105, 0]⟩, ⟨3, [1, 2, 3]⟩]⟩
        [cstr "virtual-kbd", cstr "pipe"] =
        some (0, t.trace ++ [Effect.destroy, Effect.display_roundtrip]) := by
  obtain ⟨t, h1, h2, -⟩ :=
    main_pipe_stream ⟨true, true, 7, ⟨1, 0, 0, 1⟩, ⟨0, 0, 0, 0⟩,
        [⟨2, [72, 105, 0]⟩, ⟨1, [33, 105, 0]⟩, ⟨0, [33, 105, 0]⟩, ⟨3, [1, 2, 3]⟩]⟩
      (cstr "virtual-kbd") [⟨2, [72, 105, 0]⟩, ⟨1, [33, 105, 0]⟩] ⟨0, [33, 105, 0]⟩
      [⟨3, [1, 2, 3]⟩] rfl rfl rfl (by decide) (by decide)
  exact ⟨t, h1, h2⟩

/-! ## Usage errors -/

/-- C10 (amended): for every usage error (no subcommand, `type` with no text,
or an unknown subcommand) `main` ends with a message on `stderr`, returns a
non-zero status and sends no key or modifier request. With no subcommand
nothing else is attempted. In the other two cases the error is found only at
the command dispatch: with the display and the virtual keyboard manager
available the virtual keyboard has been created and the keymap uploaded before
the message is printed. -/
theorem main_usage_error (env : Env) (argv : List CString)
    (h : argv.length < 2 ∨ (∃ prog, argv = [prog, cstr "type"]) ∨
      (∃ prog cmd rest, argv = prog :: cmd :: rest ∧ cmd ≠ cstr "type" ∧ cmd ≠ cstr "pipe")) :
    ∃ trace, main env argv = some (EXIT_FAILURE, trace) ∧ EXIT_FAILURE ≠ 0 ∧
      (∃ msg, trace.getLast? = some (Effect.stderr msg)) ∧
      (∀ e ∈ trace, e.isKey = false ∧ e.isModifiers = false) ∧
      (argv.length < 2 →
        trace = [Effect.stderr "Usage: ./virtual-keyboard <subcommand>\n"]) ∧
      (2 ≤ argv.length → env.display = true → env.keyboard_manager = true →
        ∃ msg, trace =
          [ Effect.display_connect, Effect.display_get_registry, Effect.display_dispatch,
            Effect.display_roundtrip, Effect.create_virtual_keyboard,
            Effect.keymap 1 env.keymap_size, Effect.stderr msg ]) := by
  by_cases hlen : argv.length < 2
  · refine ⟨_, main_no_subcommand env argv hlen, by decide, ⟨_, rfl⟩, ?_, fun _ => rfl, ?_⟩
    · intro e he
      simp only [List.mem_singleton] at he
      subst he
      exact ⟨rfl, rfl⟩
    · intro h2; omega
  · have hge : 2 ≤ argv.length := by omega
    cases hd : env.display with
    | false =>
      refine ⟨_, main_no_display env argv hge hd, by decide, ⟨_, rfl⟩, ?_, ?_, ?_⟩
      · intro e he
        simp only [List.mem_cons, List.mem_singleton, List.not_mem_nil, or_false] at he
        rcases he with rfl | rfl <;> exact ⟨rfl, rfl⟩
      · intro h2; exact absurd h2 hlen
      · intro _ h2; cases h2
    | true =>
      cases hk : env.keyboard_manager with
      | false =>
        refine ⟨_, main_no_manager env argv hge hd hk, by decide, ⟨_, rfl⟩, ?_, ?_, ?_⟩
        · intro e he
          simp only [List.mem_cons, List.mem_singleton, List.not_mem_nil, or_false] at he
          rcases he with rfl | rfl | rfl | rfl | rfl <;> exact ⟨rfl, rfl⟩
        · intro h2; exact absurd h2 hlen
        · intro _ _ h2; cases h2
      | true =>
        have key : ∃ msg, main env argv = some (EXIT_FAILURE,
            (State.ready env).trace ++ [Effect.stderr msg]) := by
          rcases h with h | ⟨prog, rfl⟩ | ⟨prog, cmd, rest, rfl, h1, h2⟩
          · exact absurd h hlen
          · exact ⟨_, main_type_no_text env prog hd hk⟩
          · exact ⟨_, main_invalid_subcommand env prog cmd rest hd hk h1 h2⟩
        obtain ⟨msg, hmain⟩ := key
        refine ⟨_, hmain, by decide, ⟨msg, ?_⟩, ?_, ?_, ?_⟩
        · simp
        · intro e he
          simp only [State.ready, List.cons_append, List.nil_append, List.mem_cons,
            List.mem_singleton, List.not_mem_nil, or_false] at he
          rcases he with rfl | rfl | rfl | rfl | rfl | rfl | rfl <;> exact ⟨rfl, rfl⟩
        · intro h2; exact absurd h2 hlen
        · intro _ _ _; exact ⟨msg, rfl⟩

/-- Witness for C10: `type` with no text. -/
theorem main_usage_error_witness :
    ∃ trace, main ⟨true, true, 7, ⟨1, 0, 0, 1⟩, ⟨0, 0, 0, 0⟩, []⟩
        [cstr "virtual-kbd", cstr "type"] = some (1, trace) ∧
      ∀ e ∈ trace, e.isKey = false ∧ e.isModifiers = false := by
  obtain ⟨trace, h, -, -, hno, -⟩ :=
    main_usage_error ⟨true, true, 7, ⟨1, 0, 0, 1⟩, ⟨0, 0, 0, 0⟩, []⟩
      [cstr "virtual-kbd", cstr "type"] (Or.inr (Or.inl ⟨_, rfl⟩))
  exact ⟨trace, h, hno⟩

/-- Counterexample to C10 as stated: `type` with no text creates the virtual
keyboard and uploads the keymap before the usage error is reported. -/
theorem main_usage_error_counterexample :
    ∃ trace, main ⟨true, true, 7, ⟨1, 0, 0, 1⟩, ⟨0, 0, 0, 0⟩, []⟩
        [cstr "virtual-kbd", cstr "type"] = some (EXIT_FAILURE, trace) ∧
      Effect.create_virtual_keyboard ∈ trace ∧ Effect.keymap 1 7 ∈ trace :=
  ⟨[ Effect.display_connect, Effect.display_get_registry, Effect.display_dispatch,
      Effect.display_roundtrip, Effect.create_virtual_keyboard, Effect.keymap 1 7,
      Effect.stderr "Usage: ./virtual-kbd type <text>\n" ],
    by decide, by decide, by decide⟩

/-! ## Shape of what `do_type` sends -/

theorem charmap_elem_codes :
    ∀ b, b < 256 →
      (charmap_elem b &&& 0xFF = 0 ∨
        (1 ≤ charmap_elem b &&& 0xFF ∧ charmap_elem b &&& 0xFF ≤ 57)) ∧
      charmap_elem b &&& 0xFF ≠ 42 ∧ charmap_elem b &&& 0xFF ≠ 29 ∧
      charmap_elem b &&& 0xFF ≠ 54 ∧ charmap_elem b &&& 0xFF ≠ 55 ∧
      charmap_elem b &&& 0xFF ≠ 56 ∧
      charmap_elem b &&& (0xFF ||| SHIFT) = charmap_elem b := by
  decide

theorem shift_required_eq (c : Nat) :
    shift_required c = decide (charmap_elem (c % 256) &&& SHIFT ≠ 0) := by
  unfold shift_required
  rw [charmap_at c]

theorem plain_mapped_eq (c : Nat) :
    plain_mapped c = (decide (charmap_elem (c % 256) &&& SHIFT = 0) &&
      decide (charmap_elem (c % 256) &&& 0xFF ≠ 0)) := by
  unfold plain_mapped
  rw [charmap_at c]

/-- The three behaviours of `do_type`, told apart by the entry it reads. -/
theorem do_type_cases (s : State) (c : Nat) :
    (shift_required c = true ∧ plain_mapped c = false ∧
      ∃ code, code ≠ 0 ∧ code ≠ 42 ∧ do_type s c = some { s with
        ts := (s.ts + 40) % 2 ^ 32
        trace := s.trace ++ shift_bracket s code }) ∨
    (shift_required c = false ∧ plain_mapped c = true ∧
      ∃ code, code ≠ 0 ∧ code ≠ 42 ∧ do_type s c = some { s with
        ts := (s.ts + 20) % 2 ^ 32
        trace := s.trace ++ press_release s code }) ∨
    (shift_required c = false ∧ plain_mapped c = false ∧ do_type s c = some s) := by
  have hm := charmap_at c
  have h42 := (charmap_elem_codes (c % 256) (Nat.mod_lt _ (by decide))).2.1
  by_cases hs : charmap_elem (c % 256) &&& SHIFT ≠ 0
  · refine Or.inl ⟨?_, ?_, _, charmap_shift_key hm hs, h42, do_type_of_shift s hm hs⟩
    · rw [shift_required_eq]; exact decide_eq_true hs
    · rw [plain_mapped_eq]; simp [hs]
  · rw [not_not] at hs
    by_cases hk : charmap_elem (c % 256) &&& 0xFF ≠ 0
    · refine Or.inr (Or.inl ⟨?_, ?_, _, hk, h42, do_type_of_plain s hm hs hk⟩)
      · rw [shift_required_eq]; simp [hs]
      · rw [plain_mapped_eq]; simp [hs, hk]
    · rw [not_not] at hk
      refine Or.inr (Or.inr ⟨?_, ?_, do_type_of_absent s hm hs hk⟩)
      · rw [shift_required_eq]; simp [hs]
      · rw [plain_mapped_eq]; simp [hs, hk]

theorem do_type_isSome (s : State) (c : Nat) : ∃ t, do_type s c = some t := by
  rcases do_type_cases s c with ⟨-, -, _, -, -, h⟩ | ⟨-, -, _, -, -, h⟩ | ⟨-, -, h⟩ <;>
    exact ⟨_, h⟩

/-! ## Totality of the lookup -/

/-- C11: for every argument `c`, so for every 32-bit unsigned one, the index
`c & 0xFF` of the table read in `do_type` is below 256, the read yields an entry
and `do_type` returns; the table has an entry for every byte value 0..255. -/
theorem do_type_lookup_total (c b : Nat) (hb : b < 256) :
    c &&& 0xFF < 256 ∧ (∃ m, charmap[c &&& 0xFF]? = some m) ∧
    (∀ s, ∃ t, do_type s c = some t) ∧ (∃ m, charmap[b]? = some m) ∧
    charmap.length = 256 := by
  refine ⟨?_, ⟨_, charmap_at c⟩, fun s => do_type_isSome s c, ⟨_, charmap_get b hb⟩,
    charmap_length⟩
  rw [and_0xFF]
  exact Nat.mod_lt _ (by decide)

/-- Witness for C11 at the largest 32-bit argument and the largest byte. -/
theorem do_type_lookup_total_witness :
    4294967295 &&& 0xFF < 256 ∧ (∃ m, charmap[4294967295 &&& 0xFF]? = some m) ∧
    (∃ t, do_type State.init 4294967295 = some t) ∧ (∃ m, charmap[255]? = some m) := by
  obtain ⟨h1, h2, h3, h4, -⟩ := do_type_lookup_total 4294967295 255 (by decide)
  exact ⟨h1, h2, h3 State.init, h4⟩

/-! ## Shift needs a key -/

/-- C12: for every byte `b` with entry `m`, if `m` has the `SHIFT` bit then its
key code `m & 0xFF` is non-zero; so an entry without key code, and in
particular an absent byte (entry 0), never requires Shift. -/
theorem charmap_shift_has_key (b m : Nat) (hm : charmap[b]? = some m) :
    (m &&& SHIFT ≠ 0 → m &&& 0xFF ≠ 0) ∧ (m &&& 0xFF = 0 → m &&& SHIFT = 0) ∧
    (m = 0 → m &&& SHIFT = 0) := by
  refine ⟨charmap_shift_key hm, ?_, ?_⟩
  · intro hk
    by_contra hs
    exact charmap_shift_key hm hs hk
  · intro h0
    subst h0
    decide

/-- Witness for C12 at the byte of `H`, entry `SHIFT | 35`, and at byte 0. -/
theorem charmap_shift_has_key_witness :
    charmap[72]? = some 291 ∧ 291 &&& 0xFF ≠ 0 ∧ charmap[0]? = some 0 ∧ 0 &&& SHIFT = 0 :=
  ⟨by decide, (charmap_shift_has_key 72 291 (by decide)).1 (by decide), by decide,
    (charmap_shift_has_key 0 0 (by decide)).2.2 rfl⟩


theorem key_count_shift_bracket (s : State) (code : Nat) (h : code ≠ 42) (st : KeyState) :
    key_count 42 st (shift_bracket s code) = 1 := by
  cases st <;> simp [key_count, shift_bracket, Effect.isKeyOf, h]

theorem key_count_press_release (s : State) (code : Nat) (h : code ≠ 42) (st : KeyState) :
    key_count 42 st (press_release s code) = 0 := by
  cases st <;> simp [key_count, press_release, Effect.isKeyOf, h]

/-! ## Number of events per byte -/

/-- C13 (amended): for every input byte the number of protocol events
(modifiers and key requests) that `do_type` sends is 0, 2 or 6: 6 for a byte
requiring Shift, 2 for an unshifted mapped byte, 0 for any other byte; and
`do_type` performs nothing but these events. -/
theorem do_type_event_count (s : State) (c : Nat) :
    ∃ t, do_type s c = some t ∧
      (((emitted s t).filter Effect.isEvent).length = 0 ∨
        ((emitted s t).filter Effect.isEvent).length = 2 ∨
        ((emitted s t).filter Effect.isEvent).length = 6) ∧
      (shift_required c = true → ((emitted s t).filter Effect.isEvent).length = 6) ∧
      (plain_mapped c = true → ((emitted s t).filter Effect.isEvent).length = 2) ∧
      (shift_required c = false → plain_mapped c = false →
        ((emitted s t).filter Effect.isEvent).length = 0) ∧
      (emitted s t).filter Effect.isEvent = emitted s t := by
  rcases do_type_cases s c with ⟨h1, h2, code, -, -, h⟩ | ⟨h1, h2, code, -, -, h⟩ | ⟨h1, h2, h⟩
  · refine ⟨_, h, ?_⟩
    rw [emitted_append, h1, h2]
    exact ⟨Or.inr (Or.inr rfl), fun _ => rfl, (fun h => by cases h), (fun h => by cases h), rfl⟩
  · refine ⟨_, h, ?_⟩
    rw [emitted_append, h1, h2]
    exact ⟨Or.inr (Or.inl rfl), (fun h => by cases h), fun _ => rfl, (fun _ h => by cases h), rfl⟩
  · refine ⟨_, h, ?_⟩
    rw [emitted_self, h1, h2]
    exact ⟨Or.inl rfl, (fun h => by cases h), (fun h => by cases h), fun _ _ => rfl, rfl⟩

/-- Witness for C13 at the byte of `H`, which requires Shift: six events. -/
theorem do_type_event_count_witness :
    shift_required 72 = true ∧
    ∃ t, do_type State.init 72 = some t ∧
      ((emitted State.init t).filter Effect.isEvent).length = 6 := by
  obtain ⟨t, ht, -, h6, -⟩ := do_type_event_count State.init 72
  exact ⟨by decide, t, ht, h6 (by decide)⟩

/-- Counterexample to C13 as stated: byte 0 yields no event and the byte of
`H` yields six, both outside the range 1 to 4. -/
theorem do_type_event_count_counterexample :
    ∃ t0, do_type State.init 0 = some t0 ∧
      ((emitted State.init t0).filter Effect.isEvent).length = 0 ∧
      ∃ t1, do_type State.init 72 = some t1 ∧
        ((emitted State.init t1).filter Effect.isEvent).length = 6 := by
  decide

/-! ## The counter over a byte sequence -/

theorem feed_count (bytes : List Nat) (s : State) :
    ∃ evs ts, feed s bytes = some { s with ts := ts, trace := s.trace ++ evs } ∧
      (key_times evs).length =
        2 * (bytes.filter plain_mapped).length + 4 * (bytes.filter shift_required).length := by
  induction bytes generalizing s with
  | nil => exact ⟨[], s.ts, by simp [feed_nil], rfl⟩
  | cons c bytes ih =>
    rcases do_type_cases s c with ⟨h1, h2, code, -, -, h⟩ | ⟨h1, h2, code, -, -, h⟩ | ⟨h1, h2, h⟩
    · obtain ⟨evs, ts, hf, hn⟩ := ih { s with
        ts := (s.ts + 40) % 2 ^ 32
        trace := s.trace ++ shift_bracket s code }
      refine ⟨shift_bracket s code ++ evs, ts, ?_, ?_⟩
      · rw [feed_cons, h, Option.some_bind, hf]
        simp only [List.append_assoc]
      · rw [key_times_append, List.length_append, hn, key_times_shift_bracket,
          List.filter_cons, List.filter_cons, h1, h2]
        simp only [List.length_cons, List.length_nil, if_true, Bool.false_eq_true, if_false]
        omega
    · obtain ⟨evs, ts, hf, hn⟩ := ih { s with
        ts := (s.ts + 20) % 2 ^ 32
        trace := s.trace ++ press_release s code }
      refine ⟨press_release s code ++ evs, ts, ?_, ?_⟩
      · rw [feed_cons, h, Option.some_bind, hf]
        simp only [List.append_assoc]
      · rw [key_times_append, List.length_append, hn, key_times_press_release,
          List.filter_cons, List.filter_cons, h1, h2]
        simp only [List.length_cons, List.length_nil, if_true, Bool.false_eq_true, if_false]
        omega
    · obtain ⟨evs, ts, hf, hn⟩ := ih s
      refine ⟨evs, ts, ?_, ?_⟩
      · rw [feed_cons, h, Option.some_bind, hf]
      · rw [hn, List.filter_cons, List.filter_cons, h1, h2]
        simp only [Bool.false_eq_true, if_false]

/-- C14: starting from `ts = 0`, for every input byte sequence the `k`-th key
request sent (counting from 0) carries the timestamp `(10 * k) mod 2^32`; a
modifiers request carries no timestamp and leaves the counter as it is; and
after an input with `u` unshifted mapped bytes and `s` bytes requiring Shift,
`2u + 4s` key requests have been sent and the counter is
`(10 * (2u + 4s)) mod 2^32`. -/
theorem feed_counter (s : State) (bytes : List Nat) (hts : s.ts = 0) :
    ∃ t, feed s bytes = some t ∧
      (key_times (emitted s t)).length =
        2 * (bytes.filter plain_mapped).length + 4 * (bytes.filter shift_required).length ∧
      (∀ k, k < (key_times (emitted s t)).length →
        (key_times (emitted s t))[k]? = some ((10 * k) % 2 ^ 32)) ∧
      (∀ e ∈ emitted s t, e.isModifiers = true → e.time? = none) ∧
      (∀ (u : State) d l k g, (zwp_virtual_keyboard_v1_modifiers u d l k g).ts = u.ts) ∧
      t.ts = (10 * (2 * (bytes.filter plain_mapped).length +
        4 * (bytes.filter shift_required).length)) % 2 ^ 32 := by
  obtain ⟨evs, hf, ht⟩ := feed_run bytes s (by rw [hts]; decide)
  obtain ⟨evs2, ts2, hf2, hn⟩ := feed_count bytes s
  have hevs : evs2 = evs := by
    rw [hf] at hf2
    simp only [Option.some.injEq, State.mk.injEq, true_and, List.append_cancel_left_eq] at hf2
    exact hf2.2.symm
  subst hevs
  refine ⟨_, hf, ?_, ?_, ?_, ?_, ?_⟩
  · rw [emitted_append, hn]
  · intro k hk
    rw [emitted_append] at hk ⊢
    rw [ht, List.getElem?_map, List.getElem?_range hk, hts]
    simp
  · intro e _ he
    cases e <;> first | rfl | cases he
  · intro u d l k g
    rfl
  · show (s.ts + 10 * (key_times evs2).length) % 2 ^ 32 = _
    rw [hn, hts, Nat.zero_add]

/-- Witness for C14: the bytes of `Hi!` from the initial state: one unshifted
byte and two bytes requiring Shift give 10 key requests and `ts = 100`. -/
theorem feed_counter_witness :
    State.init.ts = 0 ∧
    ∃ t, feed State.init [72, 105, 33] = some t ∧
      (key_times (emitted State.init t)).length = 10 ∧
      (key_times (emitted State.init t))[9]? = some 90 ∧ t.ts = 100 := by
  obtain ⟨t, hf, hn, hk, -, -, hts⟩ := feed_counter State.init [72, 105, 33] rfl
  have hn2 : (key_times (emitted State.init t)).length = 10 := hn.trans (by decide)
  refine ⟨rfl, t, hf, hn2, ?_, hts.trans (by decide)⟩
  exact (hk 9 (by rw [hn2]; decide)).trans (by decide)

/-! ## Keys and modifiers at byte boundaries -/

theorem key_replay_append (a b : List Effect) (held : List Nat) :
    key_replay held (a ++ b) = (key_replay held a).bind (fun h => key_replay h b) := by
  induction a generalizing held with
  | nil => rfl
  | cons e a ih =>
    cases e with
    | key time k st =>
      cases st with
      | pressed =>
        simp only [List.cons_append, key_replay]
        split
        · rfl
        · exact ih _
      | released =>
        simp only [List.cons_append, key_replay]
        split
        · exact ih _
        · rfl
    | _ => simp only [List.cons_append, key_replay]; exact ih _

theorem key_replay_shift_bracket (s : State) (code : Nat) (h : code ≠ 42) :
    key_replay [] (shift_bracket s code) = some [] := by
  simp [key_replay, shift_bracket, h]

theorem key_replay_press_release (s : State) (code : Nat) :
    key_replay [] (press_release s code) = some [] := by
  simp [key_replay, press_release]

theorem key_count_append (k : Nat) (st : KeyState) (a b : List Effect) :
    key_count k st (a ++ b) = key_count k st a + key_count k st b := by
  simp [key_count, List.filter_append]

theorem key_count_balanced_shift_bracket (s : State) (code k : Nat) :
    key_count k KeyState.pressed (shift_bracket s code) =
      key_count k KeyState.released (shift_bracket s code) := by
  by_cases h1 : 42 = k <;> by_cases h2 : code = k <;>
    simp [key_count, shift_bracket, Effect.isKeyOf, h1, h2]

theorem key_count_balanced_press_release (s : State) (code k : Nat) :
    key_count k KeyState.pressed (press_release s code) =
      key_count k KeyState.released (press_release s code) := by
  by_cases h2 : code = k <;> simp [key_count, press_release, Effect.isKeyOf, h2]

theorem last_modifiers_append (a b : List Effect) :
    last_modifiers (a ++ b) = (last_modifiers b).or (last_modifiers a) := by
  simp [last_modifiers, List.filter_append, List.getLast?_append]

theorem last_modifiers_shift_bracket (s : State) (code : Nat) :
    last_modifiers (shift_bracket s code) =
      some (Effect.modifiers s.mod_none.press s.mod_none.latch s.mod_none.lock
        s.mod_none.group) := rfl

theorem last_modifiers_press_release (s : State) (code : Nat) :
    last_modifiers (press_release s code) = none := rfl


/-- What a whole byte sequence sends leaves no key held and the modifiers
cleared. -/
theorem feed_rest (bytes : List Nat) (s : State) :
    ∃ evs ts, feed s bytes = some { s with ts := ts, trace := s.trace ++ evs } ∧
      key_replay [] evs = some [] ∧
      (∀ k, key_count k KeyState.pressed evs = key_count k KeyState.released evs) ∧
      (last_modifiers evs = none ∨
        last_modifiers evs = some (Effect.modifiers s.mod_none.press s.mod_none.latch
          s.mod_none.lock s.mod_none.group)) := by
  induction bytes generalizing s with
  | nil => exact ⟨[], s.ts, by simp [feed_nil], rfl, fun _ => rfl, Or.inl rfl⟩
  | cons c bytes ih =>
    rcases do_type_cases s c with ⟨-, -, code, -, h42, h⟩ | ⟨-, -, code, -, -, h⟩ | ⟨-, -, h⟩
    · obtain ⟨evs, ts, hf, hr, hc, hm⟩ := ih { s with
        ts := (s.ts + 40) % 2 ^ 32
        trace := s.trace ++ shift_bracket s code }
      refine ⟨shift_bracket s code ++ evs, ts, ?_, ?_, ?_, ?_⟩
      · rw [feed_cons, h, Option.some_bind, hf]
        simp only [List.append_assoc]
      · rw [key_replay_append, key_replay_shift_bracket s code h42, Option.some_bind, hr]
      · intro k
        rw [key_count_append, key_count_append, hc k, key_count_balanced_shift_bracket]
      · rw [last_modifiers_append, last_modifiers_shift_bracket]
        rcases hm with hm | hm <;> rw [hm] <;> exact Or.inr rfl
    · obtain ⟨evs, ts, hf, hr, hc, hm⟩ := ih { s with
        ts := (s.ts + 20) % 2 ^ 32
        trace := s.trace ++ press_release s code }
      refine ⟨press_release s code ++ evs, ts, ?_, ?_, ?_, ?_⟩
      · rw [feed_cons, h, Option.some_bind, hf]
        simp only [List.append_assoc]
      · rw [key_replay_append, key_replay_press_release, Option.some_bind, hr]
      · intro k
        rw [key_count_append, key_count_append, hc k, key_count_balanced_press_release]
      · rw [last_modifiers_append, last_modifiers_press_release]
        rcases hm with hm | hm <;> rw [hm]
        · exact Or.inl rfl
        · exact Or.inr rfl
    · obtain ⟨evs, ts, hf, hr, hc, hm⟩ := ih s
      exact ⟨evs, ts, by rw [feed_cons, h, Option.some_bind, hf], hr, hc, hm⟩

/-- C15: for every input byte sequence, at every byte boundary (after the
first `n` bytes, for every `n`) what has been sent so far is a prefix of the
whole event stream in which no key is pressed while held or released while not
held, no key is left held, every key code has been pressed and released equally
often, and the most recent modifiers request, if any, is the one for
`mod_none`. -/
theorem feed_at_rest (s : State) (bytes : List Nat) :
    ∃ t, feed s bytes = some t ∧
      ∀ n, ∃ u, feed s (bytes.take n) = some u ∧
        emitted s u <+: emitted s t ∧
        key_replay [] (emitted s u) = some [] ∧
        (∀ k, key_count k KeyState.pressed (emitted s u) =
          key_count k KeyState.released (emitted s u)) ∧
        (last_modifiers (emitted s u) = none ∨
          last_modifiers (emitted s u) =
            some (Effect.modifiers s.mod_none.press s.mod_none.latch s.mod_none.lock
              s.mod_none.group)) := by
  obtain ⟨evs, ts, hf, -⟩ := feed_rest bytes s
  refine ⟨_, hf, ?_⟩
  intro n
  obtain ⟨e1, t1, h1, hr, hc, hm⟩ := feed_rest (bytes.take n) s
  obtain ⟨e2, t2, h2, -⟩ := feed_rest (bytes.drop n)
    { s with ts := t1, trace := s.trace ++ e1 }
  have hsplit : feed s bytes = some { s with ts := t2, trace := s.trace ++ (e1 ++ e2) } := by
    conv_lhs => rw [← List.take_append_drop n bytes]
    rw [feed_append, h1, Option.some_bind, h2]
    simp only [List.append_assoc]
  have hevs : evs = e1 ++ e2 := by
    rw [hf] at hsplit
    simp only [Option.some.injEq, State.mk.injEq, true_and, List.append_cancel_left_eq] at hsplit
    exact hsplit.2
  refine ⟨_, h1, ?_, ?_, ?_, ?_⟩
  · rw [emitted_append, emitted_append, hevs]
    exact List.prefix_append e1 e2
  · rw [emitted_append]; exact hr
  · intro k; rw [emitted_append]; exact hc k
  · rw [emitted_append]; exact hm

/-- Witness for C15: after the first byte of `Hi!` no key is held and the last
modifiers request carries the masks of `mod_none`. -/
theorem feed_at_rest_witness :
    ∃ u, feed State.init [72] = some u ∧
      key_replay [] (emitted State.init u) = some [] ∧
      key_count 42 KeyState.pressed (emitted State.init u) =
        key_count 42 KeyState.released (emitted State.init u) := by
  obtain ⟨t, -, hn⟩ := feed_at_rest State.init [72, 105, 33]
  obtain ⟨u, hu, -, hr, hc, -⟩ := hn 1
  exact ⟨u, hu, hr, hc 42⟩

/-! ## Injectivity of the table -/

theorem charmap_elem_index :
    ∀ b, b < 256 → charmap_elem b ≠ 0 → charmap.indexOf (charmap_elem b) = b := by
  decide

theorem charmap_elem_mapped :
    ∀ b, b < 256 → charmap_elem b ≠ 0 →
      charmap_elem b &&& 0xFF ≠ 0 ∧
      (charmap_elem b &&& SHIFT = 0 ∨ charmap_elem b &&& SHIFT = SHIFT) ∧
      charmap_elem b = (charmap_elem b &&& 0xFF) ||| (charmap_elem b &&& SHIFT) := by
  decide

theorem charmap_elem_injective {b1 b2 : Nat} (h1 : b1 < 256) (h2 : b2 < 256)
    (hm : charmap_elem b1 ≠ 0) (he : charmap_elem b1 = charmap_elem b2) : b1 = b2 := by
  have e1 := charmap_elem_index b1 h1 hm
  have e2 := charmap_elem_index b2 h2 (he ▸ hm)
  rw [← e1, ← e2, he]

theorem shift_bracket_inj {s : State} {c1 c2 : Nat}
    (h : shift_bracket s c1 = shift_bracket s c2) : c1 = c2 := by
  simp only [shift_bracket, List.cons.injEq, Effect.key.injEq, true_and, and_true] at h
  exact h.1

theorem press_release_inj {s : State} {c1 c2 : Nat}
    (h : press_release s c1 = press_release s c2) : c1 = c2 := by
  simp only [press_release, List.cons.injEq, Effect.key.injEq, true_and, and_true] at h
  exact h.1

/-- C16: the table is injective on mapped bytes: two distinct bytes with
non-zero entries have different entries and different (key code, Shift bit)
pairs, and `do_type` sends different requests for them, so what is sent for a
mapped byte determines the byte. -/
theorem charmap_injective (b1 b2 m1 m2 : Nat)
    (h1 : charmap[b1]? = some m1) (h2 : charmap[b2]? = some m2)
    (hne : b1 ≠ b2) (hm1 : m1 ≠ 0) (hm2 : m2 ≠ 0) :
    m1 ≠ m2 ∧ (m1 &&& 0xFF, m1 &&& SHIFT) ≠ (m2 &&& 0xFF, m2 &&& SHIFT) ∧
    ∀ s, ∃ t1 t2, do_type s b1 = some t1 ∧ do_type s b2 = some t2 ∧
      emitted s t1 ≠ emitted s t2 := by
  have l1 := charmap_lt h1
  have l2 := charmap_lt h2
  have e1 := charmap_elem_of_get h1
  have e2 := charmap_elem_of_get h2
  have hb1 : charmap[b1 &&& 0xFF]? = some m1 := by rw [and_0xFF_of_lt l1]; exact h1
  have hb2 : charmap[b2 &&& 0xFF]? = some m2 := by rw [and_0xFF_of_lt l2]; exact h2
  obtain ⟨k1, s1, d1⟩ := charmap_elem_mapped b1 l1 (e1 ▸ hm1)
  obtain ⟨k2, s2, d2⟩ := charmap_elem_mapped b2 l2 (e2 ▸ hm2)
  rw [← e1] at k1 s1 d1
  rw [← e2] at k2 s2 d2
  have hinj : m1 ≠ m2 := by
    intro h
    exact hne (charmap_elem_injective l1 l2 (e1 ▸ hm1) (by rw [← e1, ← e2, h]))
  have hpair : ∀ {c}, m1 &&& 0xFF = c → m2 &&& 0xFF = c → m1 &&& SHIFT = m2 &&& SHIFT →
      False := by
    intro c hc1 hc2 hs
    apply hinj
    rw [d1, d2, hc1, hc2, hs]
  refine ⟨hinj, ?_, ?_⟩
  · intro h
    simp only [Prod.mk.injEq] at h
    exact hpair h.1 rfl h.2
  · intro s
    by_cases hs1 : m1 &&& SHIFT ≠ 0 <;> by_cases hs2 : m2 &&& SHIFT ≠ 0
    · refine ⟨_, _, do_type_of_shift s hb1 hs1, do_type_of_shift s hb2 hs2, ?_⟩
      rw [emitted_append, emitted_append]
      intro h
      have hs : m1 &&& SHIFT = m2 &&& SHIFT := by
        rcases s1 with s1 | s1
        · exact absurd s1 hs1
        · rcases s2 with s2 | s2
          · exact absurd s2 hs2
          · rw [s1, s2]
      exact hpair (shift_bracket_inj h) rfl hs
    · rw [not_not] at hs2
      refine ⟨_, _, do_type_of_shift s hb1 hs1, do_type_of_plain s hb2 hs2 k2, ?_⟩
      rw [emitted_append, emitted_append]
      intro h
      have := congrArg List.length h
      simp [shift_bracket, press_release] at this
    · rw [not_not] at hs1
      refine ⟨_, _, do_type_of_plain s hb1 hs1 k1, do_type_of_shift s hb2 hs2, ?_⟩
      rw [emitted_append, emitted_append]
      intro h
      have := congrArg List.length h
      simp [shift_bracket, press_release] at this
    · rw [not_not] at hs1 hs2
      refine ⟨_, _, do_type_of_plain s hb1 hs1 k1, do_type_of_plain s hb2 hs2 k2, ?_⟩
      rw [emitted_append, emitted_append]
      intro h
      exact hpair (press_release_inj h) rfl (by rw [hs1, hs2])

/-- Witness for C16: the bytes of `h` and `H` share the key code 35 and differ
in the Shift bit. -/
theorem charmap_injective_witness :
    charmap[104]? = some 35 ∧ charmap[72]? = some 291 ∧ (104 : Nat) ≠ 72 ∧
    (35 : Nat) ≠ 291 ∧
    ∃ t1 t2, do_type State.init 104 = some t1 ∧ do_type State.init 72 = some t2 ∧
      emitted State.init t1 ≠ emitted State.init t2 := by
  obtain ⟨hne, -, hev⟩ :=
    charmap_injective 104 72 35 291 (by decide) (by decide) (by decide) (by decide) (by decide)
  exact ⟨by decide, by decide, by decide, hne, hev State.init⟩

/-! ## Range of the key codes -/

/-- C17: for every byte `b` with entry `m`, the key code `m & 0xFF` is 0 or
lies in 1..57 and is none of 42 (left Shift), 29, 54, 55, 56; `m` has no bit
outside the low 8 bits and `SHIFT`; and among the requests `do_type` sends for
`b` key 42 is pressed and released exactly once when `m` has the `SHIFT` bit
and never otherwise, so the key of the character is never the Shift key. -/
theorem charmap_code_range (b m : Nat) (hm : charmap[b]? = some m) :
    (m &&& 0xFF = 0 ∨ (1 ≤ m &&& 0xFF ∧ m &&& 0xFF ≤ 57)) ∧
    m &&& 0xFF ≠ 42 ∧ m &&& 0xFF ≠ 29 ∧ m &&& 0xFF ≠ 54 ∧ m &&& 0xFF ≠ 55 ∧
    m &&& 0xFF ≠ 56 ∧
    m &&& (0xFF ||| SHIFT) = m ∧
    ∀ s, ∃ t, do_type s b = some t ∧
      key_count 42 KeyState.pressed (emitted s t) = (if m &&& SHIFT ≠ 0 then 1 else 0) ∧
      key_count 42 KeyState.released (emitted s t) = (if m &&& SHIFT ≠ 0 then 1 else 0) := by
  have hlt := charmap_lt hm
  have hb : charmap[b &&& 0xFF]? = some m := by
    rw [and_0xFF_of_lt hlt]; exact hm
  have hc := charmap_elem_codes b hlt
  rw [← charmap_elem_of_get hm] at hc
  obtain ⟨h1, h42, h29, h54, h55, h56, hbits⟩ := hc
  refine ⟨h1, h42, h29, h54, h55, h56, hbits, ?_⟩
  intro s
  by_cases hs : m &&& SHIFT ≠ 0
  · refine ⟨_, do_type_of_shift s hb hs, ?_⟩
    rw [emitted_append, if_pos hs]
    exact ⟨key_count_shift_bracket s _ h42 _, key_count_shift_bracket s _ h42 _⟩
  · rw [if_neg hs]
    rw [not_not] at hs
    by_cases hk : m &&& 0xFF ≠ 0
    · refine ⟨_, do_type_of_plain s hb hs hk, ?_⟩
      rw [emitted_append]
      exact ⟨key_count_press_release s _ h42 _, key_count_press_release s _ h42 _⟩
    · rw [not_not] at hk
      refine ⟨_, do_type_of_absent s hb hs hk, ?_⟩
      rw [emitted_self]
      exact ⟨rfl, rfl⟩

/-- Witness for C17 at the byte of `H`, entry `SHIFT | 35`. -/
theorem charmap_code_range_witness :
    charmap[72]? = some 291 ∧ 291 &&& 0xFF ≠ 42 ∧ 291 &&& (0xFF ||| SHIFT) = 291 ∧
    ∃ t, do_type State.init 72 = some t ∧
      key_count 42 KeyState.pressed (emitted State.init t) = 1 := by
  obtain ⟨-, h42, -, -, -, -, hbits, hrun⟩ := charmap_code_range 72 291 (by decide)
  obtain ⟨t, ht, hp, -⟩ := hrun State.init
  exact ⟨by decide, h42, hbits, t, ht, hp⟩

end VirtualKbd
